import Mathlib

/-!
Verification of the razorpay-vs-code-ext command classifier, dispatcher and formatter.

Shallow embedding of the natural-language command parser
(`parseQuestionForMCPTool` in the main chat provider, `parseCommand` in
`src/webviews/mcpChatViewProvider.ts`), the MCP response resolution logic of
`mcpRequest`, the result formatters (`formatMCPResult` / `formatResult`), and
the Smartron documentation-search history handling
(`callSmartronAPI` / `handleRazorpayQuestion`), together with proofs of the
spec's testable properties.

Modelling conventions:
* Strings are Lean `String` / `List Char`.  JavaScript `toLowerCase` is
  modelled by `Char.toLower` (they agree on ASCII, which is all the rule
  keywords use); the JS `\s` class is modelled by the explicit set of
  JavaScript whitespace code points; `\w` is `[A-Za-z0-9_]` exactly as in
  JS regexes without the unicode flag.
* The JS regexes used by the source are small enough that each one is
  hand-compiled to a dedicated matcher with JS leftmost-match/backtracking
  semantics (see the comments at each matcher).
* JS numbers are modelled exactly: integer amounts as `Nat`, display
  division by 100 as exact rational arithmetic.
-/

/-- JavaScript whitespace (`\s` without the unicode flag, and
`String.prototype.trim`): space, tab, LF, VT, FF, CR, NBSP, various unicode
spaces, line/paragraph separators and BOM. -/
def jsWs (c : Char) : Bool :=
  c = ' ' || c = '\t' || c = '\n' || c = (Char.ofNat 11) || c = (Char.ofNat 12) ||
  c = '\r' || c = (Char.ofNat 0xa0) || c = (Char.ofNat 0x1680) ||
  (0x2000 ≤ c.toNat && c.toNat ≤ 0x200a) || c = (Char.ofNat 0x2028) ||
  c = (Char.ofNat 0x2029) || c = (Char.ofNat 0x202f) || c = (Char.ofNat 0x205f) ||
  c = (Char.ofNat 0x3000) || c = (Char.ofNat 0xfeff)

/-- JS regex `\w`: ASCII letters, digits and underscore. -/
def jsWord (c : Char) : Bool :=
  ('a' ≤ c && c ≤ 'z') || ('A' ≤ c && c ≤ 'Z') || ('0' ≤ c && c ≤ '9') || c = '_'

/-- JS line terminators (which `.` does not match). -/
def jsNL (c : Char) : Bool :=
  c = '\n' || c = '\r' || c = (Char.ofNat 0x2028) || c = (Char.ofNat 0x2029)

/-- ASCII decimal digit test (JS `\d`). -/
def jsDigit (c : Char) : Bool := '0' ≤ c && c ≤ '9'

/-- `needle` occurs as a contiguous substring of `hay`
(JS `String.prototype.includes`). -/
def hasSub (needle : List Char) : List Char → Bool
  | [] => needle.isEmpty
  | c :: t => needle.isPrefixOf (c :: t) || hasSub needle t

/-- Case-insensitive prefix test: `pre` is given lower-cased, and is compared
against the lower-casing of the head of `cs`. -/
def startsWithCI (pre cs : List Char) : Bool :=
  (cs.take pre.length).map Char.toLower = pre

/-- Greedy run of `\w` characters. -/
def wordRun : List Char → List Char
  | [] => []
  | c :: t => if jsWord c then c :: wordRun t else []

/-- Greedy run of decimal digits. -/
def digitRun : List Char → List Char
  | [] => []
  | c :: t => if jsDigit c then c :: digitRun t else []

/-- Numeric value of a digit string (JS `parseInt` on an all-digit capture,
modelled exactly). -/
def digitsToNat (ds : List Char) : Nat :=
  ds.foldl (fun acc c => acc * 10 + (c.toNat - '0'.toNat)) 0

/-- Try to match `/pre\w+/i` at the head of `cs` (with `pre` a lower-cased
literal such as `order_`); on success return the case-preserved matched
token: the original characters covered by the literal followed by the greedy
`\w+` run. -/
def tokAt (pre cs : List Char) : Option (List Char) :=
  if startsWithCI pre cs && !(wordRun (cs.drop pre.length)).isEmpty then
    some (cs.take pre.length ++ wordRun (cs.drop pre.length))
  else none

/-- Leftmost match of `/pre\w+/i` in `cs` (JS `String.prototype.match` with a
non-global regex: scan start positions left to right). -/
def findTok (pre : List Char) : List Char → Option (List Char)
  | [] => none
  | c :: t =>
    match tokAt pre (c :: t) with
    | some r => some r
    | none => findTok pre t

/-- Leftmost match of `/(\d+)/`: the digit run starting at the first digit. -/
def findDigits : List Char → Option (List Char)
  | [] => none
  | c :: t => if jsDigit c then some (digitRun (c :: t)) else findDigits t

theorem tokAt_ne_nil {pre cs r : List Char} (h : tokAt pre cs = some r) : r ≠ [] := by
  unfold tokAt at h
  split at h
  · rename_i hc
    simp only [Option.some.injEq] at h
    subst h
    simp only [Bool.and_eq_true, Bool.not_eq_true'] at hc
    intro hnil
    have h2 := (List.append_eq_nil.mp hnil).2
    rw [h2] at hc
    simp at hc
  · exact absurd h (by simp)

theorem findTok_ne_nil {pre cs r : List Char} (h : findTok pre cs = some r) : r ≠ [] := by
  induction cs with
  | nil => simp [findTok] at h
  | cons c t ih =>
    unfold findTok at h
    cases htok : tokAt pre (c :: t) with
    | some v => rw [htok] at h; simp at h; subst h; exact tokAt_ne_nil htok
    | none => rw [htok] at h; exact ih h

/-- String-level wrapper: leftmost `/pre\w+/i` token of a string,
case-preserved. -/
def findTokStr (pre : String) (s : String) : Option String :=
  (findTok pre.toList s.toList).map List.asString

theorem findTokStr_ne_empty {pre s t : String} (h : findTokStr pre s = some t) :
    t ≠ "" := by
  unfold findTokStr at h
  cases hf : findTok pre.toList s.toList with
  | none => rw [hf] at h; simp at h
  | some r =>
    rw [hf] at h
    simp only [Option.map_some', Option.some.injEq] at h
    subst h
    have hr : r ≠ [] := findTok_ne_nil hf
    intro hc
    exact hr (List.asString_eq.mp hc)

example : findTokStr "order_" "create payment for order_ABC123 for 500" = some "order_ABC123" := by decide
example : findTokStr "order_" "no token here" = none := by decide
example : findTokStr "pay_" "capture PAY_x9 now" = some "PAY_x9" := by decide
example : hasSub "create payment".toList "please create payment now".toList = true := by decide
example : (findDigits "abc12 f 9".toList).map digitsToNat = some 12 := by decide

/-- Generic leftmost-match scan: try the positional matcher at every start
position, left to right (JS non-global `String.prototype.match`). -/
def scanFirst (pAt : List Char → Option (List Char)) : List Char → Option (List Char)
  | [] => none
  | c :: t =>
    match pAt (c :: t) with
    | some r => some r
    | none => scanFirst pAt t

/-- Leftmost-match scan for patterns that look one character back
(word-boundary `\b` before the match); `prev` is the character preceding the
current start position. -/
def scanFirstB (pAt : Option Char → List Char → Option (List Char)) :
    Option Char → List Char → Option (List Char)
  | _, [] => none
  | prev, c :: t =>
    match pAt prev (c :: t) with
    | some r => some r
    | none => scanFirstB pAt (some c) t

/-- `\b` on the left of a match: start of string, or previous char not `\w`. -/
def wbBefore : Option Char → Bool
  | none => true
  | some c => !jsWord c

/-- `\b` on the right of a digit capture: end of string, or next char not
`\w`. -/
def wbAfter : List Char → Bool
  | [] => true
  | c :: _ => !jsWord c

/-- The rupee currency sign `₹` (U+20B9). -/
def rupeeSign : Char := Char.ofNat 0x20b9

/-- Pattern 1, `/(?:₹|rs\.?|inr|rupees?)\s*(\d+)/i`, tried at one start
position.  The alternatives are tried in JS backtracking order (`rs.` before
`rs`, `rupees` before `rupee`, since `?` is greedy); after the literal,
`\s*` is a greedy whitespace run (shrinking it cannot help because no
alternative continuation begins with a digit), then the capture `(\d+)` is
the greedy digit run, required non-empty. -/
def p1At (cs : List Char) : Option (List Char) :=
  p1Alts [[rupeeSign], ['r', 's', '.'], ['r', 's'], ['i', 'n', 'r'],
          "rupees".toList, "rupee".toList] cs
where
  p1Alts : List (List Char) → List Char → Option (List Char)
    | [], _ => none
    | a :: rest, cs =>
      if startsWithCI a cs then
        let ds := digitRun ((cs.drop a.length).dropWhile (fun c => jsWs c))
        if ds.isEmpty then p1Alts rest cs else some ds
      else p1Alts rest cs

/-- Pattern 2, `/(\d+)\s*(?:₹|rs\.?|inr|rupees?)/i`, tried at one start
position.  `\d+` must start here; shrinking the greedy digit run cannot help
(the remaining digit is neither whitespace nor the head of any currency
alternative), so the capture is the full run, followed by a whitespace run
and one of the currency literals (`rs\.?` succeeds whenever `rs` is a
prefix, `rupees?` whenever `rupee` is). -/
def p2At (cs : List Char) : Option (List Char) :=
  match cs with
  | [] => none
  | c :: _ =>
    if jsDigit c then
      let ds := digitRun cs
      let rest := (cs.drop ds.length).dropWhile (fun c => jsWs c)
      if startsWithCI [rupeeSign] rest || startsWithCI ['r', 's'] rest ||
         startsWithCI ['i', 'n', 'r'] rest || startsWithCI "rupee".toList rest then
        some ds
      else none
    else none

/-- Shared tail `\s*(\d{1,6})\b`: greedy whitespace, then a non-empty digit
run of length at most 6 whose following character is not a word character.
(A run longer than 6, or one followed by a word character, makes every
greedy/backtracked choice of `\d{1,6}` end at a digit or word character,
where `\b` fails.) -/
def d6Tail (rest : List Char) : Option (List Char) :=
  let r := rest.dropWhile (fun c => jsWs c)
  let ds := digitRun r
  if !ds.isEmpty && ds.length ≤ 6 && wbAfter (r.drop ds.length) then some ds else none

/-- Pattern 3, `/(?:amount[:\s])\s*(\d{1,6})\b/i`, tried at one start
position: the literal `amount`, one `:` or whitespace character, then the
shared `\s*(\d{1,6})\b` tail. -/
def amountKwAt (cs : List Char) : Option (List Char) :=
  if startsWithCI "amount".toList cs then
    match cs.drop 6 with
    | [] => none
    | c :: rest => if c = ':' || jsWs c then d6Tail rest else none
  else none

/-- Pattern 4, `/\b(\d{1,5})\s*(?:rs|rupees?|inr)/i`, tried at one start
position with the preceding character supplied for `\b`.  As with pattern 2
the greedy digit run cannot usefully shrink, so the capture is the full run,
required of length at most 5, followed by whitespace and a currency
literal. -/
def p4At (prev : Option Char) (cs : List Char) : Option (List Char) :=
  if wbBefore prev then
    let ds := digitRun cs
    if !ds.isEmpty && ds.length ≤ 5 then
      let rest := (cs.drop ds.length).dropWhile (fun c => jsWs c)
      if startsWithCI ['r', 's'] rest || startsWithCI "rupee".toList rest ||
         startsWithCI ['i', 'n', 'r'] rest then
        some ds
      else none
    else none
  else none

/-- Link pattern, `/link\s+(?:for\s+)?(\d{1,6})\b/i`, tried at one start
position: the literal `link`, at least one whitespace character, an optional
greedy `for` + whitespace group (if `for` is present but not followed by
whitespace — or its digit tail fails — the group is dropped, after which the
digits would have to start at the `f` and necessarily fail), then the
`(\d{1,6})\b` capture. -/
def linkAmtAt (cs : List Char) : Option (List Char) :=
  if startsWithCI "link".toList cs then
    let rest := cs.drop 4
    if (rest.takeWhile (fun c => jsWs c)).isEmpty then none
    else
      let rest2 := rest.dropWhile (fun c => jsWs c)
      if startsWithCI "for".toList rest2 &&
         !((rest2.drop 3).takeWhile (fun c => jsWs c)).isEmpty then
        d6Tail (rest2.drop 3)
      else d6Tail rest2
  else none

/-- Pattern `/(?:for|amount[:\s])\s*(\d{1,6})\b/i`, tried at one start
position: alternative `for` first, then `amount[:\s]`, each followed by the
shared `\s*(\d{1,6})\b` tail. -/
def forAmountAt (cs : List Char) : Option (List Char) :=
  match (if startsWithCI "for".toList cs then d6Tail (cs.drop 3) else none) with
  | some r => some r
  | none => amountKwAt cs

/-- The amount-extraction loop shared by the classifier rules: for each
pattern in order, take its leftmost match, and accept the first one whose
numeric capture is strictly below 1,000,000
(`if (match && parseInt(match[1]) < 1000000) { amount = ...; break; }`). -/
def firstBelowMillion : List (Option (List Char)) → Option Nat
  | [] => none
  | o :: rest =>
    match o with
    | some ds => if digitsToNat ds < 1000000 then some (digitsToNat ds) else firstBelowMillion rest
    | none => firstBelowMillion rest

/-- Amount extraction of the payment-for-order rule (`amountPatterns` at the
top of `parseQuestionForMCPTool`): patterns 1–4 in source order. -/
def amountScan1 (q : List Char) : Option Nat :=
  firstBelowMillion
    [scanFirst p1At q, scanFirst p2At q, scanFirst amountKwAt q,
     scanFirstB p4At none q]

/-- Amount extraction of the generic create-payment-link rule: currency
prefix/suffix patterns, then `link (for)? N`, then `for N` / `amount: N`. -/
def amountScanLink (q : List Char) : Option Nat :=
  firstBelowMillion
    [scanFirst p1At q, scanFirst p2At q, scanFirst linkAmtAt q,
     scanFirst forAmountAt q]

/-- Character class `[\w.-]` of the email regex. -/
def emailCls (c : Char) : Bool := jsWord c || c = '.' || c = '-'

/-- Backtracking search for the `[\w.-]+\.\w+` part of the email regex
inside the greedy class run `b` after the `@`: the first `[\w.-]+` is greedy,
so the regex engine tries the longest prefix first, i.e. the LAST index
`k+1` of `b` holding a `.` followed by a word character wins; the trailing
`\w+` is the greedy word run after that dot. -/
def emailSplitAux (b : List Char) : Nat → Option (List Char)
  | 0 => none
  | k + 1 =>
    match b[k+1]?, b[k+2]? with
    | some c1, some c2 =>
      if c1 = '.' && jsWord c2 then
        some (b.take (k+1) ++ '.' :: wordRun (b.drop (k+2)))
      else emailSplitAux b k
    | _, _ => emailSplitAux b k

/-- Email regex `/[\w.-]+@[\w.-]+\.\w+/i` tried at one start position: a
non-empty greedy `[\w.-]` run (which cannot usefully shrink, since `@` is
not in the class), a literal `@`, then the backtracking split of the second
class run. -/
def emailAt (cs : List Char) : Option (List Char) :=
  let a := cs.takeWhile emailCls
  if a.isEmpty then none
  else
    match cs.drop a.length with
    | '@' :: rest =>
      let b := rest.takeWhile emailCls
      match emailSplitAux b b.length with
      | some m2 => some (a ++ '@' :: m2)
      | none => none
    | _ => none

/-- Phone regex `/\b[6-9]\d{9}\b/` tried at one start position: word
boundary, a first digit in `6..9`, nine further digits, then a word
boundary. -/
def phoneAt (prev : Option Char) (cs : List Char) : Option (List Char) :=
  if wbBefore prev then
    match cs with
    | [] => none
    | c :: _ =>
      if '6' ≤ c && c ≤ '9' then
        let ds := cs.take 10
        if ds.length = 10 && ds.all jsDigit && wbAfter (cs.drop 10) then some ds else none
      else none
  else none

/-- Leftmost email match of a string (`question.match(/[\w.-]+@[\w.-]+\.\w+/i)`). -/
def findEmail (s : String) : Option String := (scanFirst emailAt s.toList).map List.asString

/-- Leftmost phone match of a string (`question.match(/\b[6-9]\d{9}\b/)`). -/
def findPhone (s : String) : Option String :=
  (scanFirstB phoneAt none s.toList).map List.asString

example : amountScan1 "create payment for order_A for 500".toList = none := by decide
example : amountScan1 "pay for order_A for 500 rupees".toList = some 500 := by decide
example : amountScan1 "pay for order_A amount: 750".toList = some 750 := by decide
example : amountScan1 "pay for order_A Rs. 20".toList = some 20 := by decide
example : amountScanLink "create payment link for 250".toList = some 250 := by decide
example : amountScanLink "create payment link".toList = none := by decide
example : amountScanLink "link 99".toList = some 99 := by decide
example : findEmail "mail a.b-c@foo.co.in now" = some "a.b-c@foo.co.in" := by decide
example : findEmail "no at sign" = none := by decide
example : findPhone "call 9876543210 ok" = some "9876543210" := by decide
example : findPhone "call 98765432109 ok" = none := by decide

/-- Split into the maximal line-terminator-free segments (the regions within
which the JS regex `.` can match). -/
def linesNoNL : List Char → List (List Char)
  | [] => [[]]
  | c :: t =>
    let ls := linesNoNL t
    if jsNL c then [] :: ls else (c :: ls.headD []) :: ls.tail

/-- Drop everything up to and including the first occurrence of `needle`;
`none` when `needle` does not occur. -/
def subAfter (needle : List Char) : List Char → Option (List Char)
  | [] => if needle.isEmpty then some [] else none
  | c :: t =>
    if needle.isPrefixOf (c :: t) then some ((c :: t).drop needle.length)
    else subAfter needle t

/-- `/order.*for.*\d+/` as a test: since `.` never crosses a line
terminator, a match exists iff some terminator-free segment contains
`order`, then `for`, then a digit, in order (taking the earliest
occurrences is complete because later text only shrinks). -/
def matchOrderForDigit (lower : List Char) : Bool :=
  (linesNoNL lower).any fun l =>
    match subAfter "order".toList l with
    | some r1 =>
      match subAfter "for".toList r1 with
      | some r2 => r2.any (fun c => jsDigit c)
      | none => false
    | none => false

/-- `/^\d+.*order$/` as a test (no `m` flag: `^`/`$` anchor the whole
string): a leading digit, the suffix `order`, and no line terminator in
between (extra digits are absorbed by `.*`). -/
def matchDigitsThenOrder (lower : List Char) : Bool :=
  match lower with
  | [] => false
  | c :: t =>
    jsDigit c && "order".toList.isSuffixOf (c :: t) &&
      (t.take (t.length - 5)).all (fun x => !jsNL x)

/-- `/payment.*(details|info|status)/` as a test, by segments as above. -/
def matchPaymentDIS (lower : List Char) : Bool :=
  (linesNoNL lower).any fun l =>
    match subAfter "payment".toList l with
    | some r =>
      hasSub "details".toList r || hasSub "info".toList r || hasSub "status".toList r
    | none => false

/-- `params.customer` object of the payment-link rules. -/
structure CustomerInfo where
  email : String
  contact : String
deriving DecidableEq, Repr

/-- `params.notify` object of the payment-link rules. -/
structure NotifyInfo where
  email : Bool
  sms : Bool
deriving DecidableEq, Repr

/-- Floor of the base-2 logarithm, by structural recursion on a fuel bound
(the number of halvings needed is at most the number itself). -/
def natLog2Aux : Nat → Nat → Nat
  | 0, _ => 0
  | fuel + 1, n => if n ≤ 1 then 0 else natLog2Aux fuel (n / 2) + 1

/-- Floor of the base-2 logarithm of a positive natural (0 at 0 and 1). -/
def natLog2 (n : Nat) : Nat := natLog2Aux n n

theorem natLog2Aux_spec : ∀ fuel n, 1 ≤ n → n ≤ fuel →
    2 ^ natLog2Aux fuel n ≤ n ∧ n < 2 ^ (natLog2Aux fuel n + 1) := by
  intro fuel
  induction fuel with
  | zero => intro n h1 h2; omega
  | succ fuel ih =>
    intro n h1 h2
    have e : natLog2Aux (fuel + 1) n =
        if n ≤ 1 then 0 else natLog2Aux fuel (n / 2) + 1 := rfl
    rw [e]
    split
    · rename_i hle
      have hn : n = 1 := by omega
      subst hn
      exact ⟨by norm_num, by norm_num⟩
    · rename_i hgt
      have hrec := ih (n / 2) (by omega) (by omega)
      have hp1 : 2 ^ (natLog2Aux fuel (n / 2) + 1) =
          2 ^ natLog2Aux fuel (n / 2) * 2 := pow_succ 2 _
      have hp2 : 2 ^ (natLog2Aux fuel (n / 2) + 1 + 1) =
          2 ^ (natLog2Aux fuel (n / 2) + 1) * 2 := pow_succ 2 _
      obtain ⟨hlo, hhi⟩ := hrec
      constructor
      · omega
      · omega

theorem natLog2_le {n : Nat} (h : 1 ≤ n) : 2 ^ natLog2 n ≤ n :=
  (natLog2Aux_spec n n h le_rfl).1

theorem natLog2_lt {n : Nat} (h : 1 ≤ n) : n < 2 ^ (natLog2 n + 1) :=
  (natLog2Aux_spec n n h le_rfl).2

/-- Round the exact fraction `p / q` to the nearest natural number, ties to
the even candidate: the rounding rule of IEEE 754 round-to-nearest-even
applied to an exact nonnegative quotient. -/
def rneDiv (p q : Nat) : Nat :=
  if 2 * (p % q) < q then p / q
  else if q < 2 * (p % q) then p / q + 1
  else if (p / q) % 2 = 0 then p / q else p / q + 1

theorem rneDiv_err {p q : Nat} (hq : 0 < q) :
    |((rneDiv p q : ℚ)) - (p : ℚ) / q| ≤ 1 / 2 := by
  have hq' : (0 : ℚ) < (q : ℚ) := by exact_mod_cast hq
  have hmod : p % q < q := Nat.mod_lt _ hq
  have hnat : ((q * (p / q) + p % q : Nat) : ℚ) = (p : ℚ) := by
    rw [Nat.div_add_mod]
  push_cast at hnat
  have hsplit : (p : ℚ) / q = ((p / q : Nat) : ℚ) + ((p % q : Nat) : ℚ) / q := by
    field_simp
    linarith [hnat]
  have hr0 : (0 : ℚ) ≤ ((p % q : Nat) : ℚ) / q := by positivity
  unfold rneDiv
  split_ifs with h1 h2 h3
  · have hup : ((p % q : Nat) : ℚ) / q ≤ 1 / 2 := by
      rw [div_le_div_iff₀ hq' two_pos, one_mul]
      exact_mod_cast (by omega : p % q * 2 ≤ q)
    rw [hsplit, abs_le]
    constructor <;> linarith
  · have hlow : (1 : ℚ) / 2 ≤ ((p % q : Nat) : ℚ) / q := by
      rw [div_le_div_iff₀ two_pos hq', one_mul]
      exact_mod_cast (by omega : q ≤ p % q * 2)
    have hup1 : ((p % q : Nat) : ℚ) / q ≤ 1 := by
      rw [div_le_one hq']
      exact_mod_cast le_of_lt hmod
    rw [hsplit, abs_le]
    push_cast
    constructor <;> linarith
  · have heq : ((p % q : Nat) : ℚ) / q = 1 / 2 := by
      rw [div_eq_div_iff hq'.ne' two_ne_zero, one_mul]
      exact_mod_cast (by omega : p % q * 2 = q)
    rw [hsplit, abs_le]
    constructor <;> linarith [heq]
  · have heq : ((p % q : Nat) : ℚ) / q = 1 / 2 := by
      rw [div_eq_div_iff hq'.ne' two_ne_zero, one_mul]
      exact_mod_cast (by omega : p % q * 2 = q)
    rw [hsplit, abs_le]
    push_cast
    constructor <;> linarith [heq]

/-- Round a natural number to the nearest binary64 (IEEE 754 double)
value, ties to the even significand.  Naturals below `2 ^ 53` are exactly
representable and unchanged; above, the unit in the last place is
`2 ^ (log2 n - 52)` and the value is rounded to the nearest multiple of
it.  This is the value a JS engine holds after `parseInt` of a large digit
capture or after an integer-valued arithmetic result.  (Magnitudes at or
above `2 ^ 1024` overflow to Infinity in JS; the model leaves them at the
rounded integer, and no theorem below evaluates the model there.) -/
def fl64 (n : Nat) : Nat :=
  if n < 2 ^ 53 then n
  else rneDiv n (2 ^ (natLog2 n - 52)) * 2 ^ (natLog2 n - 52)

/-- `parseInt(capture) * 100` as JS computes it in binary64: `parseInt`
rounds the capture's integer value to a double, and the multiplication
rounds the product again.  Both roundings are the identity whenever the
mathematical product is below `2 ^ 53`. -/
def jsTimes100 (n : Nat) : Nat := fl64 (fl64 n * 100)

theorem fl64_of_lt {n : Nat} (h : n < 2 ^ 53) : fl64 n = n := if_pos h

theorem jsTimes100_of_lt {n : Nat} (h : n * 100 < 2 ^ 53) :
    jsTimes100 n = n * 100 := by
  have hn : n < 2 ^ 53 := by omega
  unfold jsTimes100
  rw [fl64_of_lt hn, fl64_of_lt h]

theorem jsTimes100_mod {n : Nat} (h : n * 100 < 2 ^ 53) :
    jsTimes100 n % 100 = 0 := by
  rw [jsTimes100_of_lt h]
  exact Nat.mul_mod_left n 100

/-- The dynamic parameter bag built by the classifiers; every field the two
implementations ever set appears as an optional field (absent = not set on
the JS object). -/
structure ToolParams where
  amount : Option Nat := none
  currency : Option String := none
  description : Option String := none
  customer : Option CustomerInfo := none
  notify : Option NotifyInfo := none
  order_id : Option String := none
  payment_id : Option String := none
  refund_id : Option String := none
  plink_id : Option String := none
  medium : Option String := none
  count : Option Nat := none
  missing : Option String := none
  orderId : Option String := none
  usage : Option String := none
  fixed_amount : Option Bool := none
  payment_amount : Option Nat := none
deriving DecidableEq, Repr

/-- The classifier result `{ action, tool, params, message? }`. -/
structure ParseResult where
  action : String
  tool : String
  params : ToolParams
  message : Option String := none
deriving DecidableEq, Repr

/-- Customer/notify extraction shared by the two create-payment-link rules:
set only when an email or a phone number is found
(`params.customer = { email: emailMatch ? emailMatch[0] : '', contact:
phoneMatch ? ... : '' }`, `params.notify = { email: !!emailMatch, sms:
!!phoneMatch }`). -/
def customerOf (q : List Char) : Option CustomerInfo × Option NotifyInfo :=
  let em := (scanFirst emailAt q).map List.asString
  let ph := (scanFirstB phoneAt none q).map List.asString
  if em.isSome || ph.isSome then
    (some ⟨em.getD "", (ph.map (fun p => "+91" ++ p)).getD ""⟩,
     some ⟨em.isSome, ph.isSome⟩)
  else (none, none)

/-- The `need_input` message of the payment-for-order rule. -/
def amountMissingMsg (oid : String) : String :=
  "⚠️ **Please specify the amount**\n\nInclude the amount in your command:\n\n`Generate payment for "
    ++ oid ++ " for <amount> rupees`\n\n💡 **Tip:** Use the same amount as your order!"

/-- Rule 0 guard: help / list-tools phrases. -/
def listToolsGuard (lower : List Char) : Bool :=
  hasSub "list tools".toList lower || hasSub "available tools".toList lower ||
  hasSub "show tools".toList lower || hasSub "what can you do".toList lower ||
  lower = "help".toList

/-- Payment-intent phrases of the priority payment-for-order rule. -/
def payPhrase (lower : List Char) : Bool :=
  hasSub "create payment".toList lower || hasSub "generate payment".toList lower ||
  hasSub "make payment".toList lower || hasSub "pay for".toList lower ||
  hasSub "send payment".toList lower

/-- Create-order rule guard. -/
def createOrderGuard (lower : List Char) : Bool :=
  (hasSub "create".toList lower && hasSub "order".toList lower &&
    !hasSub "payment".toList lower) ||
  hasSub "new order".toList lower ||
  (matchOrderForDigit lower && !hasSub "payment".toList lower) ||
  matchDigitsThenOrder lower

/-- Fetch-order keywords. -/
def fetchOrderKw (lower : List Char) : Bool :=
  hasSub "fetch".toList lower || hasSub "get".toList lower ||
  hasSub "details".toList lower || hasSub "info".toList lower ||
  hasSub "status".toList lower || hasSub "show".toList lower

/-- List-all-orders rule guard. -/
def listOrdersGuard (lower q : List Char) : Bool :=
  hasSub "list order".toList lower || hasSub "all order".toList lower ||
  hasSub "show order".toList lower ||
  (hasSub "fetch".toList lower && hasSub "order".toList lower &&
    !(findTok "order_".toList q).isSome) ||
  "orders".toList.isSuffixOf lower

/-- Fetch-payment rule guard (keyword part). -/
def fetchPaymentKw (lower : List Char) : Bool :=
  hasSub "fetch payment".toList lower || hasSub "get payment".toList lower ||
  matchPaymentDIS lower

/-- List-all-payments rule guard. -/
def listPaymentsGuard (lower : List Char) : Bool :=
  hasSub "list payment".toList lower || hasSub "all payment".toList lower ||
  hasSub "show payment".toList lower || hasSub "fetch payment".toList lower ||
  "payments".toList.isSuffixOf lower

/-- List-all-refunds rule guard. -/
def listRefundsGuard (lower : List Char) : Bool :=
  hasSub "list refund".toList lower || hasSub "all refund".toList lower ||
  hasSub "show refund".toList lower || "refunds".toList.isSuffixOf lower

/-- Fetch-order-payments rule guard (outer condition; the order-id presence
check of the inner `if` is conjoined at the call site, since its absence
falls through to the later rules). -/
def orderPaymentsGuard (lower q : List Char) : Bool :=
  hasSub "order payment".toList lower ||
  (hasSub "payment".toList lower && hasSub "for".toList lower &&
    (findTok "order_".toList q).isSome && !hasSub "create".toList lower &&
    !hasSub "make".toList lower && !hasSub "send".toList lower)

/-- One intent rule of a classifier cascade: a guard and a result builder,
both over the original character list `q` and its lower-casing `lower`. -/
structure Rule where
  guard : List Char → List Char → Bool
  emit : List Char → List Char → ParseResult

/-- First-match-wins evaluation of an if / else-if rule cascade; the empty
tail is the classifiers' shared default (`return { action: 'list_tools',
tool: '', params: {} }`). -/
def runRules : List Rule → List Char → List Char → ParseResult
  | [], _, _ => { action := "list_tools", tool := "", params := {} }
  | r :: rest, q, lower =>
    if r.guard q lower then r.emit q lower else runRules rest q lower

/-- Rule: list tools / help phrases. -/
def pqRuleListTools : Rule :=
  { guard := fun _ lower => listToolsGuard lower,
    emit := fun _ _ => { action := "list_tools", tool := "", params := {} } }

/-- PRIORITY rule: create/generate/make/send payment or pay-for with an
`order_` token → create payment link, or ask for the amount. -/
def pqRulePayOrder : Rule :=
  { guard := fun q lower => payPhrase lower && (findTok "order_".toList q).isSome,
    emit := fun q _ =>
      match amountScan1 q with
      | none =>
        { action := "need_input", tool := "create_payment_link",
          params := { missing := some "amount",
                      orderId := some ((findTok "order_".toList q).getD []).asString },
          message := some (amountMissingMsg ((findTok "order_".toList q).getD []).asString) }
      | some n =>
        { action := "call_tool", tool := "create_payment_link",
          params := { amount := some (n * 100), currency := some "INR",
                      description := some ("Payment for " ++ ((findTok "order_".toList q).getD []).asString),
                      customer := (customerOf q).1,
                      notify := (customerOf q).2 } } }

/-- Rule: create order (only when not about payment).  The amount is
`parseInt(amountMatch[1]) * 100`, computed in binary64 (`jsTimes100`),
defaulting to the literal 50000. -/
def pqRuleCreateOrder : Rule :=
  { guard := fun _ lower => createOrderGuard lower,
    emit := fun q _ =>
      { action := "call_tool", tool := "create_order",
        params := { amount := some ((((findDigits q).map digitsToNat).map jsTimes100).getD 50000),
                    currency := some "INR" } } }

/-- Rule: fetch a single order by id. -/
def pqRuleFetchOrder : Rule :=
  { guard := fun q lower => (findTok "order_".toList q).isSome && fetchOrderKw lower,
    emit := fun q _ =>
      { action := "call_tool", tool := "fetch_order",
        params := { order_id := some ((findTok "order_".toList q).getD []).asString } } }

/-- Rule: list / fetch all orders. -/
def pqRuleListOrders : Rule :=
  { guard := fun q lower => listOrdersGuard lower q,
    emit := fun _ _ =>
      { action := "call_tool", tool := "fetch_all_orders", params := { count := some 10 } } }

/-- Rule: fetch order without an id → ask for it. -/
def pqRuleFetchOrderNoId : Rule :=
  { guard := fun q lower =>
      (hasSub "fetch order".toList lower || hasSub "get order".toList lower) &&
        !(findTok "order_".toList q).isSome,
    emit := fun _ _ =>
      { action := "need_input", tool := "fetch_order",
        params := { missing := some "order_id (e.g., order_XXXXX)" } } }

/-- Rule: fetch a single payment by id. -/
def pqRuleFetchPayment : Rule :=
  { guard := fun q lower => fetchPaymentKw lower && (findTok "pay_".toList q).isSome,
    emit := fun q _ =>
      { action := "call_tool", tool := "fetch_payment",
        params := { payment_id := some ((findTok "pay_".toList q).getD []).asString } } }

/-- Rule: list / fetch all payments. -/
def pqRuleListPayments : Rule :=
  { guard := fun _ lower => listPaymentsGuard lower,
    emit := fun _ _ =>
      { action := "call_tool", tool := "fetch_all_payments", params := { count := some 10 } } }

/-- Rule: fetch a single refund by id. -/
def pqRuleFetchRefund : Rule :=
  { guard := fun q lower =>
      (hasSub "fetch refund".toList lower || hasSub "get refund".toList lower) &&
        (findTok "rfnd_".toList q).isSome,
    emit := fun q _ =>
      { action := "call_tool", tool := "fetch_refund",
        params := { refund_id := some ((findTok "rfnd_".toList q).getD []).asString } } }

/-- Rule: list / fetch all refunds. -/
def pqRuleListRefunds : Rule :=
  { guard := fun _ lower => listRefundsGuard lower,
    emit := fun _ _ =>
      { action := "call_tool", tool := "fetch_all_refunds", params := { count := some 10 } } }

/-- Rule: capture payment (asks for the payment id when absent).  The
amount is the binary64 product `parseInt(capture) * 100`, defaulting to
the literal 10000. -/
def pqRuleCapture : Rule :=
  { guard := fun _ lower => hasSub "capture".toList lower && hasSub "payment".toList lower,
    emit := fun q _ =>
      match findTok "pay_".toList q with
      | none =>
        { action := "need_input", tool := "capture_payment",
          params := { missing := some "payment_id" } }
      | some pid =>
        { action := "call_tool", tool := "capture_payment",
          params := { payment_id := some pid.asString,
                      amount := some ((((findDigits q).map digitsToNat).map jsTimes100).getD 10000),
                      currency := some "INR" } } }

/-- Rule: fetch the payments of an order (the source's inner `if
(orderIdMatch)` falls through when no order id is present, so the id
presence is part of the guard). -/
def pqRuleOrderPayments : Rule :=
  { guard := fun q lower => orderPaymentsGuard lower q && (findTok "order_".toList q).isSome,
    emit := fun q _ =>
      { action := "call_tool", tool := "fetch_order_payments",
        params := { order_id := some ((findTok "order_".toList q).getD []).asString } } }

/-- Rule: create a payment link (generic). -/
def pqRuleLink : Rule :=
  { guard := fun _ lower =>
      hasSub "payment link".toList lower || hasSub "create_payment_link".toList lower,
    emit := fun q _ =>
      { action := "call_tool", tool := "create_payment_link",
        params := { amount := some (match amountScanLink q with
                                    | some n => n * 100
                                    | none => 50000),
                    currency := some "INR", description := some "Payment Link",
                    customer := (customerOf q).1,
                    notify := (customerOf q).2 } } }

/-- Rule: fetch all payment links (unreachable after `pqRuleLink`, kept
because the source keeps it). -/
def pqRuleListLinks : Rule :=
  { guard := fun _ lower =>
      hasSub "payment link".toList lower &&
        (hasSub "list".toList lower || hasSub "all".toList lower ||
         hasSub "fetch".toList lower),
    emit := fun _ _ =>
      { action := "call_tool", tool := "fetch_all_payment_links", params := {} } }

/-- Rule: send a payment-link notification. -/
def pqRuleNotify : Rule :=
  { guard := fun q lower =>
      (hasSub "send".toList lower || hasSub "notify".toList lower) &&
        hasSub "link".toList lower && (findTok "plink_".toList q).isSome,
    emit := fun q lower =>
      { action := "call_tool", tool := "payment_link_notify",
        params := { plink_id := some ((findTok "plink_".toList q).getD []).asString,
                    medium := some (if hasSub "sms".toList lower ||
                                       ((scanFirstB phoneAt none q).isSome &&
                                        !(scanFirst emailAt q).isSome)
                                    then "sms" else "email") } } }

/-- Rule: create a QR code.  The payment amount is the binary64 product
`parseInt(capture) * 100`, defaulting to the literal 50000. -/
def pqRuleQrCreate : Rule :=
  { guard := fun _ lower => hasSub "qr".toList lower && hasSub "create".toList lower,
    emit := fun q _ =>
      { action := "call_tool", tool := "create_qr_code",
        params := { usage := some "single_use", fixed_amount := some true,
                    payment_amount := some ((((findDigits q).map digitsToNat).map jsTimes100).getD 50000) } } }

/-- Rule: list / fetch all QR codes. -/
def pqRuleQrList : Rule :=
  { guard := fun _ lower =>
      hasSub "qr".toList lower &&
        (hasSub "list".toList lower || hasSub "all".toList lower ||
         hasSub "fetch".toList lower),
    emit := fun _ _ =>
      { action := "call_tool", tool := "fetch_all_qr_codes", params := {} } }

/-- Rule: fetch all settlements. -/
def pqRuleSettlements : Rule :=
  { guard := fun _ lower => hasSub "settlement".toList lower,
    emit := fun _ _ =>
      { action := "call_tool", tool := "fetch_all_settlements", params := { count := some 10 } } }

/-- Rule: fetch all payouts. -/
def pqRulePayouts : Rule :=
  { guard := fun _ lower => hasSub "payout".toList lower,
    emit := fun _ _ =>
      { action := "call_tool", tool := "fetch_all_payouts", params := {} } }

/-- The ordered rule cascade of `parseQuestionForMCPTool`, one entry per
`if (...) return {...}` block, in source order. -/
def pqRules : List Rule :=
  [pqRuleListTools, pqRulePayOrder, pqRuleCreateOrder, pqRuleFetchOrder,
   pqRuleListOrders, pqRuleFetchOrderNoId, pqRuleFetchPayment,
   pqRuleListPayments, pqRuleFetchRefund, pqRuleListRefunds, pqRuleCapture,
   pqRuleOrderPayments, pqRuleLink, pqRuleListLinks, pqRuleNotify,
   pqRuleQrCreate, pqRuleQrList, pqRuleSettlements, pqRulePayouts]

/-- `parseQuestionForMCPTool` of the main chat provider: the ordered regex
cascade mapping free text to an MCP tool invocation
(`const lowerQuestion = question.toLowerCase()`). -/
def parseQuestionForMCPTool (question : String) : ParseResult :=
  runRules pqRules question.toList (question.toList.map Char.toLower)

/-- Sidebar `parseCommand` rule: help / list tools. -/
def pcRuleHelp : Rule :=
  { guard := fun _ lower =>
      hasSub "help".toList lower || hasSub "list tools".toList lower ||
        hasSub "available".toList lower,
    emit := fun _ _ => { action := "list_tools", tool := "", params := {} } }

/-- Sidebar `parseCommand` rule: create order
(`lower.includes('create') && lower.includes('order')`); the amount is the
binary64 product `parseInt(capture) * 100`, defaulting to 50000. -/
def pcRuleCreateOrder : Rule :=
  { guard := fun _ lower => hasSub "create".toList lower && hasSub "order".toList lower,
    emit := fun c _ =>
      { action := "call_tool", tool := "create_order",
        params := { amount := some ((((findDigits c).map digitsToNat).map jsTimes100).getD 50000),
                    currency := some "INR" } } }

/-- Sidebar `parseCommand` rule: fetch order by id. -/
def pcRuleFetchOrder : Rule :=
  { guard := fun c lower =>
      (findTok "order_".toList c).isSome &&
        (hasSub "fetch".toList lower || hasSub "get".toList lower ||
         hasSub "status".toList lower),
    emit := fun c _ =>
      { action := "call_tool", tool := "fetch_order",
        params := { order_id := (findTok "order_".toList c).map List.asString } } }

/-- Sidebar `parseCommand` rule: list orders. -/
def pcRuleListOrders : Rule :=
  { guard := fun _ lower => hasSub "list".toList lower && hasSub "order".toList lower,
    emit := fun _ _ =>
      { action := "call_tool", tool := "fetch_all_orders", params := { count := some 10 } } }

/-- Sidebar `parseCommand` rule: list payments. -/
def pcRuleListPayments : Rule :=
  { guard := fun _ lower => hasSub "list".toList lower && hasSub "payment".toList lower,
    emit := fun _ _ =>
      { action := "call_tool", tool := "fetch_all_payments", params := { count := some 10 } } }

/-- Sidebar `parseCommand` rule: fetch payment when a `pay_` token occurs. -/
def pcRuleFetchPayment : Rule :=
  { guard := fun c _ => (findTok "pay_".toList c).isSome,
    emit := fun c _ =>
      { action := "call_tool", tool := "fetch_payment",
        params := { payment_id := (findTok "pay_".toList c).map List.asString } } }

/-- Sidebar `parseCommand` rule: create payment link; the amount is the
binary64 product `parseInt(capture) * 100`, defaulting to 50000. -/
def pcRuleLink : Rule :=
  { guard := fun _ lower =>
      hasSub "payment link".toList lower || hasSub "create link".toList lower,
    emit := fun c _ =>
      { action := "call_tool", tool := "create_payment_link",
        params := { amount := some ((((findDigits c).map digitsToNat).map jsTimes100).getD 50000),
                    currency := some "INR", description := some "Payment Link" } } }

/-- Sidebar `parseCommand` rule: list refunds. -/
def pcRuleRefunds : Rule :=
  { guard := fun _ lower => hasSub "refund".toList lower,
    emit := fun _ _ =>
      { action := "call_tool", tool := "fetch_all_refunds", params := { count := some 10 } } }

/-- Sidebar `parseCommand` rule: list settlements. -/
def pcRuleSettlements : Rule :=
  { guard := fun _ lower => hasSub "settlement".toList lower,
    emit := fun _ _ =>
      { action := "call_tool", tool := "fetch_all_settlements", params := { count := some 10 } } }

/-- The ordered rule cascade of `parseCommand` of the sidebar
`MCPChatViewProvider` (`src/webviews/mcpChatViewProvider.ts`), the
simplified variant.  Optional-chaining extractions
(`command.match(...)?.[0]`) are kept as `Option`-valued fields. -/
def pcRules : List Rule :=
  [pcRuleHelp, pcRuleCreateOrder, pcRuleFetchOrder, pcRuleListOrders,
   pcRuleListPayments, pcRuleFetchPayment, pcRuleLink, pcRuleRefunds,
   pcRuleSettlements]

/-- `parseCommand` of the sidebar provider, on a string. -/
def parseCommand (command : String) : ParseResult :=
  runRules pcRules command.toList (command.toList.map Char.toLower)


example : (parseQuestionForMCPTool "list orders") =
    { action := "call_tool", tool := "fetch_all_orders", params := { count := some 10 } } := by decide
example : (parseQuestionForMCPTool "fetch refund rfnd_9XA7b2") =
    { action := "call_tool", tool := "fetch_refund",
      params := { refund_id := some "rfnd_9XA7b2" } } := by decide
example : (parseQuestionForMCPTool "create payment for order_ABC123 for 500").action = "need_input" := by decide
example : (parseQuestionForMCPTool "create payment for order_ABC123 for 500 rupees").tool = "create_payment_link" := by decide
example : (parseCommand "create payment for order_ABC123 for 500").tool = "create_order" := by decide
example : (parseQuestionForMCPTool "fetch order order_Xy12").params.order_id = some "order_Xy12" := by decide
example : (parseCommand "help me").action = "list_tools" := by decide

/-- The tool catalog of `getStaticToolsList` (the 32 tools of the MCP
server). -/
def knownTools : List String :=
  ["create_order", "fetch_order", "fetch_all_orders", "update_order",
   "fetch_payment", "fetch_all_payments", "fetch_order_payments",
   "capture_payment", "initiate_payment",
   "create_payment_link", "fetch_payment_link", "fetch_all_payment_links",
   "update_payment_link",
   "create_qr_code", "fetch_qr_code", "fetch_all_qr_codes",
   "fetch_qr_codes_by_customer_id", "fetch_payments_for_qr_code",
   "fetch_refund", "fetch_all_refunds", "fetch_multiple_refunds_for_payment",
   "update_refund",
   "fetch_all_settlements", "fetch_settlement_with_id",
   "fetch_all_instant_settlements", "fetch_settlement_recon_details",
   "fetch_all_payouts", "fetch_payout_with_id",
   "fetch_tokens", "revoke_token",
   "payment_link_notify", "payment_link_upi_create"]

/-- An optional string field that is present and non-empty. -/
def nonEmptyStr : Option String → Bool
  | some s => !s.isEmpty
  | none => false

/-- Modelled from the spec: each tool's minimal hard-required fields (the
spec's ClassifiedRequest invariant, with the required fields enumerated by
the claim: `order_id` for fetch_order (and fetch_order_payments),
`payment_id` for fetch_payment and capture_payment, `plink_id` for
payment_link_notify, an amount for create_order / create_payment_link /
create_qr_code, a `refund_id` for fetch_refund; list/fetch-all tools
require nothing). -/
def requiredOk (tool : String) (p : ToolParams) : Bool :=
  if tool = "create_order" then p.amount.isSome
  else if tool = "create_payment_link" then p.amount.isSome
  else if tool = "fetch_order" then nonEmptyStr p.order_id
  else if tool = "fetch_order_payments" then nonEmptyStr p.order_id
  else if tool = "fetch_payment" then nonEmptyStr p.payment_id
  else if tool = "capture_payment" then nonEmptyStr p.payment_id && p.amount.isSome
  else if tool = "fetch_refund" then nonEmptyStr p.refund_id
  else if tool = "payment_link_notify" then nonEmptyStr p.plink_id
  else if tool = "create_qr_code" then p.payment_amount.isSome
  else true

/-- The spec's one classifier correctness invariant, as a predicate on a
classification result: a `call_tool` action names a catalog tool and its
hard-required parameters are present and non-empty. -/
def callToolOk (r : ParseResult) : Bool :=
  knownTools.contains r.tool && requiredOk r.tool r.params

theorem asString_isEmpty_eq_false {l : List Char} (h : l ≠ []) :
    l.asString.isEmpty = false := by
  rcases hb : l.asString.isEmpty with _ | _
  · rfl
  · exact absurd (List.asString_eq.mp ((String.isEmpty_iff _).mp hb)) h

theorem findTok_getD_nonempty {pre q : List Char} (h : (findTok pre q).isSome = true) :
    (((findTok pre q).getD []).asString).isEmpty = false := by
  cases hf : findTok pre q with
  | none => rw [hf] at h; simp at h
  | some r =>
    rw [Option.getD_some]
    exact asString_isEmpty_eq_false (findTok_ne_nil hf)

/-- First-match-wins: a rule whose guard holds short-circuits the cascade. -/
theorem runRules_hit {r : Rule} {rest : List Rule} {q lower : List Char}
    (h : r.guard q lower = true) :
    runRules (r :: rest) q lower = r.emit q lower := by
  have e : runRules (r :: rest) q lower =
      if r.guard q lower = true then r.emit q lower else runRules rest q lower := rfl
  rw [e, h]
  simp

/-- First-match-wins: a rule whose guard fails is skipped. -/
theorem runRules_skip {r : Rule} {rest : List Rule} {q lower : List Char}
    (h : r.guard q lower = false) :
    runRules (r :: rest) q lower = runRules rest q lower := by
  have e : runRules (r :: rest) q lower =
      if r.guard q lower = true then r.emit q lower else runRules rest q lower := rfl
  rw [e, h]
  simp

/-- Cascade-traversal principle: a result predicate holding on the default
and on every rule's output under its guard holds on the cascade output. -/
theorem runRules_pred (P : ParseResult → Prop) :
    ∀ (rules : List Rule),
      P { action := "list_tools", tool := "", params := {} } →
      (∀ r ∈ rules, ∀ q lower, r.guard q lower = true → P (r.emit q lower)) →
      ∀ q lower, P (runRules rules q lower) := by
  intro rules hdef
  induction rules with
  | nil => intro _ q lower; exact hdef
  | cons r rest ih =>
    intro h q lower
    unfold runRules
    split
    · rename_i hg; exact h r (by simp) q lower hg
    · exact ih (fun r' hr' => h r' (by simp [hr'])) q lower

/-- The classifier invariant as a boolean predicate on one result. -/
def resOk (r : ParseResult) : Bool :=
  r.action != "call_tool" || (knownTools.contains r.tool && requiredOk r.tool r.params)

theorem map_asString_nonEmptyStr {pre q : List Char} (h : (findTok pre q).isSome = true) :
    nonEmptyStr ((findTok pre q).map List.asString) = true := by
  cases hf : findTok pre q with
  | none => rw [hf] at h; simp at h
  | some r =>
    show (!r.asString.isEmpty) = true
    rw [asString_isEmpty_eq_false (findTok_ne_nil hf)]
    rfl

theorem pqRules_resOk :
    ∀ r ∈ pqRules, ∀ q lower, r.guard q lower = true → resOk (r.emit q lower) = true := by
  intro r hr q lower hg
  simp only [pqRules, List.mem_cons, List.not_mem_nil, or_false] at hr
  rcases hr with rfl|rfl|rfl|rfl|rfl|rfl|rfl|rfl|rfl|rfl|rfl|rfl|rfl|rfl|rfl|rfl|rfl|rfl|rfl
  all_goals try rfl
  all_goals dsimp only [pqRulePayOrder, pqRuleFetchOrder, pqRuleFetchPayment, pqRuleFetchRefund,
    pqRuleCapture, pqRuleOrderPayments, pqRuleNotify] at hg ⊢
  -- payment-for-order rule (match on the amount scan)
  · cases hA : amountScan1 q <;> rfl
  -- fetch_order
  · rw [Bool.and_eq_true] at hg
    show (!(((findTok "order_".toList q).getD []).asString).isEmpty) = true
    rw [findTok_getD_nonempty hg.1]
    rfl
  -- fetch_payment
  · rw [Bool.and_eq_true] at hg
    show (!(((findTok "pay_".toList q).getD []).asString).isEmpty) = true
    rw [findTok_getD_nonempty hg.2]
    rfl
  -- fetch_refund
  · rw [Bool.and_eq_true] at hg
    show (!(((findTok "rfnd_".toList q).getD []).asString).isEmpty) = true
    rw [findTok_getD_nonempty hg.2]
    rfl
  -- capture_payment (match on the payment-id token)
  · cases hp : findTok "pay_".toList q with
    | none => rfl
    | some pid =>
      show ((!pid.asString.isEmpty) && true) = true
      rw [asString_isEmpty_eq_false (findTok_ne_nil hp)]
      rfl
  -- fetch_order_payments
  · rw [Bool.and_eq_true] at hg
    show (!(((findTok "order_".toList q).getD []).asString).isEmpty) = true
    rw [findTok_getD_nonempty hg.2]
    rfl
  -- payment_link_notify
  · rw [Bool.and_eq_true, Bool.and_eq_true] at hg
    show (!(((findTok "plink_".toList q).getD []).asString).isEmpty) = true
    rw [findTok_getD_nonempty hg.2]
    rfl

theorem pcRules_resOk :
    ∀ r ∈ pcRules, ∀ q lower, r.guard q lower = true → resOk (r.emit q lower) = true := by
  intro r hr q lower hg
  simp only [pcRules, List.mem_cons, List.not_mem_nil, or_false] at hr
  rcases hr with rfl|rfl|rfl|rfl|rfl|rfl|rfl|rfl|rfl
  all_goals try rfl
  all_goals dsimp only [pcRuleFetchOrder, pcRuleFetchPayment] at hg ⊢
  · rw [Bool.and_eq_true] at hg
    show nonEmptyStr ((findTok "order_".toList q).map List.asString) = true
    exact map_asString_nonEmptyStr hg.1
  · show nonEmptyStr ((findTok "pay_".toList q).map List.asString) = true
    exact map_asString_nonEmptyStr hg

theorem resOk_elim {r : ParseResult} (h : resOk r = true) (ha : r.action = "call_tool") :
    knownTools.contains r.tool = true ∧ requiredOk r.tool r.params = true := by
  unfold resOk at h
  rw [ha] at h
  rw [show (("call_tool" : String) != "call_tool") = false from rfl, Bool.false_or,
      Bool.and_eq_true] at h
  exact ⟨h.1, h.2⟩

/-- Claim C10's property on one classification result: monetary parameters
of a `call_tool` request are multiples of 100. -/
def paise100 (r : ParseResult) : Prop :=
  r.action = "call_tool" →
    (∀ a, r.params.amount = some a → a % 100 = 0) ∧
    (∀ a, r.params.payment_amount = some a → a % 100 = 0)

/-- The digit-capture bound under which JS `parseInt(capture) * 100` is
computed exactly in binary64: the capture's integer value times 100 stays
below `2 ^ 53`. -/
def captureSmall (q : List Char) : Prop :=
  ∀ ds, findDigits q = some ds → digitsToNat ds * 100 < 2 ^ 53

theorem getD_jsTimes100_mod {q : List Char} {d : Nat} (hb : captureSmall q)
    (hd : d % 100 = 0) :
    ((((findDigits q).map digitsToNat).map jsTimes100).getD d) % 100 = 0 := by
  cases hq : findDigits q with
  | none => simp only [Option.map_none', Option.getD_none]; exact hd
  | some ds =>
    simp only [Option.map_some', Option.getD_some]
    exact jsTimes100_mod (hb ds hq)

/-- Cascade-traversal principle with access to the raw input: a predicate
over input and result holding on the default and on every rule's output
under its guard holds on the cascade output. -/
theorem runRules_predQ (P : List Char → ParseResult → Prop) :
    ∀ (rules : List Rule),
      (∀ q, P q { action := "list_tools", tool := "", params := {} }) →
      (∀ r ∈ rules, ∀ q lower, r.guard q lower = true → P q (r.emit q lower)) →
      ∀ q lower, P q (runRules rules q lower) := by
  intro rules hdef
  induction rules with
  | nil => intro _ q lower; exact hdef q
  | cons r rest ih =>
    intro h q lower
    unfold runRules
    split
    · rename_i hg; exact h r (by simp) q lower hg
    · exact ih (fun r' hr' => h r' (by simp [hr'])) q lower

theorem pqRules_paise100 :
    ∀ r ∈ pqRules, ∀ q lower, r.guard q lower = true →
      captureSmall q → paise100 (r.emit q lower) := by
  intro r hr q lower hg
  simp only [pqRules, List.mem_cons, List.not_mem_nil, or_false] at hr
  rcases hr with rfl|rfl|rfl|rfl|rfl|rfl|rfl|rfl|rfl|rfl|rfl|rfl|rfl|rfl|rfl|rfl|rfl|rfl|rfl
  all_goals try (dsimp only [pqRuleListTools, pqRulePayOrder, pqRuleCreateOrder,
    pqRuleFetchOrder, pqRuleListOrders, pqRuleFetchOrderNoId, pqRuleFetchPayment,
    pqRuleListPayments, pqRuleFetchRefund, pqRuleListRefunds, pqRuleCapture,
    pqRuleOrderPayments, pqRuleLink, pqRuleListLinks, pqRuleNotify, pqRuleQrCreate,
    pqRuleQrList, pqRuleSettlements, pqRulePayouts])
  all_goals try ((intro _ _; constructor <;> (intro a haa; simp at haa)); done)
  -- payment-for-order rule
  · intro _
    cases hA : amountScan1 q with
    | none => intro ha; simp at ha
    | some n =>
      intro _
      refine ⟨fun a haa => ?_, fun a haa => by simp at haa⟩
      rw [Option.some_inj] at haa
      rw [← haa]
      exact Nat.mul_mod_left n 100
  -- create_order
  · intro hb _
    refine ⟨fun a haa => ?_, fun a haa => by simp at haa⟩
    rw [Option.some_inj] at haa
    rw [← haa]
    exact getD_jsTimes100_mod hb (by decide)
  -- capture_payment
  · intro hb
    cases hp : findTok "pay_".toList q with
    | none => intro ha; simp at ha
    | some pid =>
      intro _
      refine ⟨fun a haa => ?_, fun a haa => by simp at haa⟩
      rw [Option.some_inj] at haa
      rw [← haa]
      exact getD_jsTimes100_mod hb (by decide)
  -- generic create payment link
  · intro _
    cases hL : amountScanLink q with
    | none =>
      intro _
      refine ⟨fun a haa => ?_, fun a haa => by simp at haa⟩
      simp at haa
      omega
    | some n =>
      intro _
      refine ⟨fun a haa => ?_, fun a haa => by simp at haa⟩
      rw [Option.some_inj] at haa
      rw [← haa]
      exact Nat.mul_mod_left n 100
  -- create_qr_code
  · intro hb _
    refine ⟨fun a haa => by simp at haa, fun a haa => ?_⟩
    rw [Option.some_inj] at haa
    rw [← haa]
    exact getD_jsTimes100_mod hb (by decide)

theorem pcRules_paise100 :
    ∀ r ∈ pcRules, ∀ q lower, r.guard q lower = true →
      captureSmall q → paise100 (r.emit q lower) := by
  intro r hr q lower hg
  simp only [pcRules, List.mem_cons, List.not_mem_nil, or_false] at hr
  rcases hr with rfl|rfl|rfl|rfl|rfl|rfl|rfl|rfl|rfl
  all_goals try (dsimp only [pcRuleHelp, pcRuleCreateOrder, pcRuleFetchOrder,
    pcRuleListOrders, pcRuleListPayments, pcRuleFetchPayment, pcRuleLink,
    pcRuleRefunds, pcRuleSettlements])
  all_goals try ((intro _ _; constructor <;> (intro a haa; simp at haa)); done)
  all_goals
    (intro hb _
     refine ⟨fun a haa => ?_, fun a haa => by simp at haa⟩
     rw [Option.some_inj] at haa
     rw [← haa]
     exact getD_jsTimes100_mod hb (by decide))

/-- Shared stepping lemma: when the list-tools guard fails, the payment
phrases are present and an `order_` token is found, the classifier commits
to the priority payment-for-order rule. -/
theorem pq_payOrder_eq (s : String) (t : List Char)
    (h0 : listToolsGuard (s.toList.map Char.toLower) = false)
    (h1 : payPhrase (s.toList.map Char.toLower) = true)
    (h2 : findTok "order_".toList s.toList = some t) :
    parseQuestionForMCPTool s =
      pqRulePayOrder.emit s.toList (s.toList.map Char.toLower) := by
  have hg0 : pqRuleListTools.guard s.toList (s.toList.map Char.toLower) = false := h0
  have hg1 : pqRulePayOrder.guard s.toList (s.toList.map Char.toLower) = true := by
    show (payPhrase (s.toList.map Char.toLower) &&
      (findTok "order_".toList s.toList).isSome) = true
    rw [h1, h2]
    rfl
  unfold parseQuestionForMCPTool pqRules
  rw [runRules_skip hg0, runRules_hit hg1]

/-- C1 (amended): in `parseQuestionForMCPTool`, for every input containing
one of the payment-intent phrases (create/generate/make/send payment, pay
for) together with an `order_` token, and not triggering the list-tools
check, the classifier commits to tool `create_payment_link` — a `call_tool`
whose description references the order token when an amount is extractable,
a `need_input` naming the amount and carrying the order token otherwise —
and never to `create_order`.  (The claim's further assertion that this holds
in every classifier implementation fails: see the counterexample on
`parseCommand`.) -/
theorem pq_payment_intent_beats_create_order (s : String) (t : List Char)
    (h0 : listToolsGuard (s.toList.map Char.toLower) = false)
    (h1 : payPhrase (s.toList.map Char.toLower) = true)
    (h2 : findTok "order_".toList s.toList = some t) :
    (parseQuestionForMCPTool s).tool = "create_payment_link" ∧
    (parseQuestionForMCPTool s).tool ≠ "create_order" ∧
    ((∃ n, amountScan1 s.toList = some n ∧
        (parseQuestionForMCPTool s).action = "call_tool" ∧
        (parseQuestionForMCPTool s).params.description =
          some ("Payment for " ++ t.asString)) ∨
     (amountScan1 s.toList = none ∧
        (parseQuestionForMCPTool s).action = "need_input" ∧
        (parseQuestionForMCPTool s).params.orderId = some t.asString ∧
        (parseQuestionForMCPTool s).params.missing = some "amount")) := by
  rw [pq_payOrder_eq s t h0 h1 h2]
  dsimp only [pqRulePayOrder]
  rw [h2]
  have hne : ("create_payment_link" : String) ≠ "create_order" := by decide
  cases hA : amountScan1 s.toList with
  | none => exact ⟨rfl, hne, Or.inr ⟨rfl, rfl, rfl, rfl⟩⟩
  | some n => exact ⟨rfl, hne, Or.inl ⟨n, rfl, rfl, rfl⟩⟩

/-- C1 witness: the spec's example string classifies with tool
`create_payment_link` (and since `for 500` carries no currency marker, the
amount scan fails and the classifier asks for the amount — never
`create_order`). -/
theorem pq_payment_intent_beats_create_order_witness :
    (parseQuestionForMCPTool "create payment for order_ABC123 for 500").tool =
      "create_payment_link" :=
  (pq_payment_intent_beats_create_order "create payment for order_ABC123 for 500"
    "order_ABC123".toList (by decide) (by decide) (by decide)).1

/-- C1 counterexample: the sidebar `parseCommand` classifies the spec's
example string as ORDER creation (its create-order rule fires on any input
containing `create` and `order`, before any payment-link rule), so the
priority claim does not hold in every classifier implementation. -/
theorem parseCommand_payment_for_order_counterexample :
    hasSub "create payment".toList
      ("create payment for order_ABC123 for 500".toList.map Char.toLower) = true ∧
    (findTok "order_".toList "create payment for order_ABC123 for 500".toList).isSome = true ∧
    (parseCommand "create payment for order_ABC123 for 500").action = "call_tool" ∧
    (parseCommand "create payment for order_ABC123 for 500").tool = "create_order" :=
  ⟨by decide, by decide, by decide, by decide⟩

/-- C3 (amended): in `parseQuestionForMCPTool`, a payment-for-order input
(payment phrase + `order_` token, list-tools check not triggered) with no
extractable amount yields exactly the `need_input` result naming `amount`,
with the order token echoed — never a `call_tool` with a defaulted amount.
(The claim fails on the sidebar `parseCommand`: see the counterexample.) -/
theorem pq_payment_for_order_no_amount_needs_input (s : String) (t : List Char)
    (h0 : listToolsGuard (s.toList.map Char.toLower) = false)
    (h1 : payPhrase (s.toList.map Char.toLower) = true)
    (h2 : findTok "order_".toList s.toList = some t)
    (h3 : amountScan1 s.toList = none) :
    parseQuestionForMCPTool s =
      { action := "need_input", tool := "create_payment_link",
        params := { missing := some "amount", orderId := some t.asString },
        message := some (amountMissingMsg t.asString) } := by
  rw [pq_payOrder_eq s t h0 h1 h2]
  dsimp only [pqRulePayOrder]
  rw [h2, h3]
  rfl

/-- C3 witness: `generate payment for order_XYZ` (no amount anywhere)
produces `need_input` with `missing = amount`. -/
theorem pq_payment_for_order_no_amount_needs_input_witness :
    parseQuestionForMCPTool "generate payment for order_XYZ" =
      { action := "need_input", tool := "create_payment_link",
        params := { missing := some "amount", orderId := some "order_XYZ" },
        message := some (amountMissingMsg "order_XYZ") } :=
  pq_payment_for_order_no_amount_needs_input "generate payment for order_XYZ"
    "order_XYZ".toList (by decide) (by decide) (by decide) (by decide)

/-- C3 counterexample: on the same kind of input the sidebar `parseCommand`
returns `call_tool` for `create_order` with the silently defaulted amount
50000 instead of `need_input`. -/
theorem parseCommand_no_amount_defaults_counterexample :
    (parseCommand "create payment for order_XYZ").action = "call_tool" ∧
    (parseCommand "create payment for order_XYZ").tool = "create_order" ∧
    (parseCommand "create payment for order_XYZ").params.amount = some 50000 :=
  ⟨by decide, by decide, by decide⟩

/-- C4 (amended): for every input holding an `order_` token and one of the
keywords fetch/get/status, PROVIDED none of the three earlier rules fires
(list-tools phrases, a payment-intent phrase, the create-order guard), the
classifier returns `call_tool` / `fetch_order` with `order_id` the exact,
case-preserved leftmost `order_\w+` token of the original input.  (As
stated, without the proviso, the claim is false: see the counterexample,
where the create-order rule wins.) -/
theorem pq_fetch_order_by_id (s : String) (t : List Char)
    (h0 : listToolsGuard (s.toList.map Char.toLower) = false)
    (h1 : payPhrase (s.toList.map Char.toLower) = false)
    (h2 : createOrderGuard (s.toList.map Char.toLower) = false)
    (h3 : findTok "order_".toList s.toList = some t)
    (h4 : hasSub "fetch".toList (s.toList.map Char.toLower) = true ∨
          hasSub "get".toList (s.toList.map Char.toLower) = true ∨
          hasSub "status".toList (s.toList.map Char.toLower) = true) :
    parseQuestionForMCPTool s =
      { action := "call_tool", tool := "fetch_order",
        params := { order_id := some t.asString } } := by
  have hg0 : pqRuleListTools.guard s.toList (s.toList.map Char.toLower) = false := h0
  have hg1 : pqRulePayOrder.guard s.toList (s.toList.map Char.toLower) = false := by
    show (payPhrase (s.toList.map Char.toLower) &&
      (findTok "order_".toList s.toList).isSome) = false
    rw [h1]
    rfl
  have hg2 : pqRuleCreateOrder.guard s.toList (s.toList.map Char.toLower) = false := h2
  have hkw : fetchOrderKw (s.toList.map Char.toLower) = true := by
    unfold fetchOrderKw
    rcases h4 with h | h | h <;> rw [h] <;> simp
  have hg3 : pqRuleFetchOrder.guard s.toList (s.toList.map Char.toLower) = true := by
    show ((findTok "order_".toList s.toList).isSome &&
      fetchOrderKw (s.toList.map Char.toLower)) = true
    rw [h3, hkw]
    rfl
  unfold parseQuestionForMCPTool pqRules
  rw [runRules_skip hg0, runRules_skip hg1, runRules_skip hg2, runRules_hit hg3]
  dsimp only [pqRuleFetchOrder]
  rw [h3]
  rfl

/-- C4 witness: `fetch order order_Ab9` yields `fetch_order` with the
case-preserved token. -/
theorem pq_fetch_order_by_id_witness :
    parseQuestionForMCPTool "fetch order order_Ab9" =
      { action := "call_tool", tool := "fetch_order",
        params := { order_id := some "order_Ab9" } } :=
  pq_fetch_order_by_id "fetch order order_Ab9" "order_Ab9".toList
    (by decide) (by decide) (by decide) (by decide) (Or.inl (by decide))

/-- C4 counterexample: `create order and get order_ABC` contains an
`order_` token and the keyword `get`, yet classifies as `create_order`
(the create-order rule precedes the fetch-order rule), refuting the
unconditional claim. -/
theorem pq_fetch_order_priority_counterexample :
    (findTok "order_".toList "create order and get order_ABC".toList).isSome = true ∧
    hasSub "get".toList ("create order and get order_ABC".toList.map Char.toLower) = true ∧
    (parseQuestionForMCPTool "create order and get order_ABC").tool = "create_order" :=
  ⟨by decide, by decide, by decide⟩

/-- C5: whichever of the two create-payment-link rules an input fires,
when its amount scan — the fixed ordered pattern list accepting the first
pattern whose leftmost numeric capture is < 1,000,000 (`amountScan1`,
`amountScanLink`) — yields `N`, the built request is `call_tool` /
`create_payment_link` with amount exactly `N * 100`: clause one covers the
payment-for-order rule, clause two the generic rule (reached when none of
the twelve earlier guards holds and the text mentions `payment link` /
`create_payment_link`). -/
theorem pq_create_payment_link_amount (s : String) (n : Nat) (t : List Char) :
    (listToolsGuard (s.toList.map Char.toLower) = false →
      payPhrase (s.toList.map Char.toLower) = true →
      findTok "order_".toList s.toList = some t →
      amountScan1 s.toList = some n →
      (parseQuestionForMCPTool s).action = "call_tool" ∧
      (parseQuestionForMCPTool s).tool = "create_payment_link" ∧
      (parseQuestionForMCPTool s).params.amount = some (n * 100)) ∧
    (pqRuleListTools.guard s.toList (s.toList.map Char.toLower) = false →
      pqRulePayOrder.guard s.toList (s.toList.map Char.toLower) = false →
      pqRuleCreateOrder.guard s.toList (s.toList.map Char.toLower) = false →
      pqRuleFetchOrder.guard s.toList (s.toList.map Char.toLower) = false →
      pqRuleListOrders.guard s.toList (s.toList.map Char.toLower) = false →
      pqRuleFetchOrderNoId.guard s.toList (s.toList.map Char.toLower) = false →
      pqRuleFetchPayment.guard s.toList (s.toList.map Char.toLower) = false →
      pqRuleListPayments.guard s.toList (s.toList.map Char.toLower) = false →
      pqRuleFetchRefund.guard s.toList (s.toList.map Char.toLower) = false →
      pqRuleListRefunds.guard s.toList (s.toList.map Char.toLower) = false →
      pqRuleCapture.guard s.toList (s.toList.map Char.toLower) = false →
      pqRuleOrderPayments.guard s.toList (s.toList.map Char.toLower) = false →
      pqRuleLink.guard s.toList (s.toList.map Char.toLower) = true →
      amountScanLink s.toList = some n →
      (parseQuestionForMCPTool s).action = "call_tool" ∧
      (parseQuestionForMCPTool s).tool = "create_payment_link" ∧
      (parseQuestionForMCPTool s).params.amount = some (n * 100)) := by
  constructor
  · intro h0 h1 h2 hA
    rw [pq_payOrder_eq s t h0 h1 h2]
    dsimp only [pqRulePayOrder]
    rw [hA]
    exact ⟨rfl, rfl, rfl⟩
  · intro g1 g2 g3 g4 g5 g6 g7 g8 g9 g10 g11 g12 g13 hA
    have e : parseQuestionForMCPTool s =
        pqRuleLink.emit s.toList (s.toList.map Char.toLower) := by
      unfold parseQuestionForMCPTool pqRules
      rw [runRules_skip g1, runRules_skip g2, runRules_skip g3, runRules_skip g4,
          runRules_skip g5, runRules_skip g6, runRules_skip g7, runRules_skip g8,
          runRules_skip g9, runRules_skip g10, runRules_skip g11, runRules_skip g12,
          runRules_hit g13]
    rw [e]
    dsimp only [pqRuleLink]
    rw [hA]
    exact ⟨rfl, rfl, rfl⟩

/-- C5 witness: `create payment link for 250` extracts N = 250 (via the
`link (for)? N` pattern) and the request amount is 25000; and
`pay for order_Q for 30 rupees` extracts N = 30 with amount 3000. -/
theorem pq_create_payment_link_amount_witness :
    ((parseQuestionForMCPTool "create payment link for 250").params.amount = some 25000) ∧
    ((parseQuestionForMCPTool "pay for order_Q for 30 rupees").params.amount = some 3000) :=
  ⟨((pq_create_payment_link_amount "create payment link for 250" 250 []).2
      (by decide) (by decide) (by decide) (by decide) (by decide) (by decide)
      (by decide) (by decide) (by decide) (by decide) (by decide) (by decide)
      (by decide) (by decide)).2.2,
   ((pq_create_payment_link_amount "pay for order_Q for 30 rupees" 30 "order_Q".toList).1
      (by decide) (by decide) (by decide) (by decide)).2.2⟩

/-- C2: for every input, whenever either classifier returns a `call_tool`
action, the tool is one of the catalog tool names and that tool's
hard-required parameters (order_id / payment_id / plink_id / refund_id /
amount, per tool) are present and non-empty; inputs whose required ids
cannot be extracted are routed to `need_input` results instead, never to
`call_tool`. -/
theorem classifier_call_tool_required_params (s : String) :
    ((parseQuestionForMCPTool s).action = "call_tool" →
      knownTools.contains (parseQuestionForMCPTool s).tool = true ∧
      requiredOk (parseQuestionForMCPTool s).tool (parseQuestionForMCPTool s).params = true) ∧
    ((parseCommand s).action = "call_tool" →
      knownTools.contains (parseCommand s).tool = true ∧
      requiredOk (parseCommand s).tool (parseCommand s).params = true) :=
  ⟨fun h => resOk_elim
      (runRules_pred (fun r => resOk r = true) pqRules rfl pqRules_resOk
        s.toList (s.toList.map Char.toLower)) h,
   fun h => resOk_elim
      (runRules_pred (fun r => resOk r = true) pcRules rfl pcRules_resOk
        s.toList (s.toList.map Char.toLower)) h⟩

/-- C2 witness: a concrete `call_tool` classification satisfying the
invariant. -/
theorem classifier_call_tool_required_params_witness :
    knownTools.contains (parseQuestionForMCPTool "fetch order order_W1").tool = true ∧
    requiredOk (parseQuestionForMCPTool "fetch order order_W1").tool
      (parseQuestionForMCPTool "fetch order order_W1").params = true :=
  (classifier_call_tool_required_params "fetch order order_W1").1 (by decide)

/-- C10 counterexample: on the input `create order 9007199254740994` the
create-order rule fires and the binary64 product `parseInt(capture) * 100`
rounds the mathematical value 900719925474099400 to 900719925474099456
(the capture 2^53 + 2 is exactly representable, the product is not and
rounds up by 56), so the emitted amount is not a multiple of 100. -/
theorem classifier_amounts_double_rounding_counterexample :
    (parseQuestionForMCPTool "create order 9007199254740994").action = "call_tool" ∧
    (parseQuestionForMCPTool "create order 9007199254740994").tool = "create_order" ∧
    (parseQuestionForMCPTool "create order 9007199254740994").params.amount =
      some 900719925474099456 ∧
    900719925474099456 % 100 = 56 :=
  ⟨by decide, by decide, by decide, by decide⟩

/-- C10 (amended): for every input whose digit capture (if any) times 100
stays below `2 ^ 53` — the range on which the binary64 product
`parseInt(capture) * 100` is exact — every monetary parameter (`amount` or
`payment_amount`) of a `call_tool` request produced by either classifier
is a multiple of 100 (extracted values are an integer capture times 100,
and every default — 50000, 10000 — is a multiple of 100; being `Nat`, they
are non-negative).  Beyond that range double rounding can break the
invariant. -/
theorem classifier_amounts_multiple_of_100 (s : String)
    (h : captureSmall s.toList) :
    paise100 (parseQuestionForMCPTool s) ∧ paise100 (parseCommand s) :=
  ⟨runRules_predQ (fun q r => captureSmall q → paise100 r) pqRules
      (fun _ _ ha => absurd ha (by decide)) pqRules_paise100
      s.toList (s.toList.map Char.toLower) h,
   runRules_predQ (fun q r => captureSmall q → paise100 r) pcRules
      (fun _ _ ha => absurd ha (by decide)) pcRules_paise100
      s.toList (s.toList.map Char.toLower) h⟩

/-- C10 witness: `create order for 77` has the small capture 77, produces
amount 7700, and the theorem instance yields `7700 % 100 = 0`. -/
theorem classifier_amounts_multiple_of_100_witness :
    captureSmall "create order for 77".toList ∧
    (parseQuestionForMCPTool "create order for 77").params.amount = some 7700 ∧
    7700 % 100 = 0 := by
  have hb : captureSmall "create order for 77".toList := by
    intro ds hds
    rw [show findDigits "create order for 77".toList = some ['7', '7'] from by decide] at hds
    injection hds with hds'
    subst hds'
    decide
  exact ⟨hb, by decide,
    ((classifier_amounts_multiple_of_100 "create order for 77" hb).1 (by decide)).1
      7700 (by decide)⟩

/-- One element of a `collection` result; the formatters read only these
fields (`item.id`, `item.amount`, `item.status`, `item.created_at`). -/
structure CollItem where
  id : String
  amount : Option Int
  status : Option String
  created_at : Option Nat
deriving DecidableEq, Repr

/-- One rendered table row of `formatMCPResult`'s collection branch:
`| id | ₹(amount/100) or "-" | status or "-" | created date or "-" |`.
The monetary division is exact rational division by 100; the
`toLocaleDateString` rendering of the timestamp is kept as the raw value. -/
structure Row where
  id : String
  amountDisp : Option ℚ
  status : Option String
  created_at : Option Nat
deriving DecidableEq, Repr

/-- Row construction of the main formatter's loop body. -/
def renderRow (it : CollItem) : Row :=
  { id := it.id, amountDisp := it.amount.map (fun a => (a : ℚ) / 100),
    status := it.status, created_at := it.created_at }

/-- Rows emitted by `formatMCPResult` for a collection:
`for (const item of items.slice(0, 10))`. -/
def collectionRows (items : List CollItem) : List Row :=
  (items.take 10).map renderRow

/-- The `*... and N more*` note of `formatMCPResult`: present exactly when
`items.length > 10`, with N = `items.length - 10`. -/
def collectionMoreNote (items : List CollItem) : Option Nat :=
  if items.length > 10 then some (items.length - 10) else none

/-- One rendered line of the sidebar `formatResult` collection branch:
`- \`id\` | Rs amount/100 or "-" | status`. -/
structure RowSide where
  id : String
  amountDisp : Option ℚ
  status : Option String
deriving DecidableEq, Repr

/-- Row construction of the sidebar formatter's loop body. -/
def renderRowSide (it : CollItem) : RowSide :=
  { id := it.id, amountDisp := it.amount.map (fun a => (a : ℚ) / 100),
    status := it.status }

/-- Rows emitted by the sidebar `formatResult` for a collection:
`for (const item of items.slice(0, 5))`. -/
def collectionRowsSide (items : List CollItem) : List RowSide :=
  (items.take 5).map renderRowSide

/-- The sidebar's `... and N more` note: present exactly when
`items.length > 5`, with N = `items.length - 5`. -/
def collectionMoreNoteSide (items : List CollItem) : Option Nat :=
  if items.length > 5 then some (items.length - 5) else none

/-- The structured content of `formatMCPResult`'s collection branch: the
`Found N items` header (`data.count || items.length`, where a zero count is
falsy in JS), the table rows, and the truncation note.  (String assembly
and `toLocaleDateString` are abstracted to this structured form.) -/
structure CollectionRender where
  header : Nat
  rows : List Row
  more : Option Nat
deriving DecidableEq, Repr

/-- The collection branch of `formatMCPResult`. -/
def formatMCPResultCollection (count : Option Nat) (items : List CollItem) : CollectionRender :=
  { header := match count with
      | some c => if c = 0 then items.length else c
      | none => items.length,
    rows := collectionRows items,
    more := collectionMoreNote items }

/-- The structured content of the sidebar `formatResult`'s collection
branch. -/
structure CollectionRenderSide where
  header : Nat
  rows : List RowSide
  more : Option Nat
deriving DecidableEq, Repr

/-- The collection branch of the sidebar `formatResult`. -/
def formatResultCollection (count : Option Nat) (items : List CollItem) : CollectionRenderSide :=
  { header := match count with
      | some c => if c = 0 then items.length else c
      | none => items.length,
    rows := collectionRowsSide items,
    more := collectionMoreNoteSide items }

/-- C6 (amended): the MAIN formatter `formatMCPResult` renders every item
exactly once (in order) with no truncation note when `items.length ≤ 10`,
and exactly 10 rows plus one `and N more` note with `N = items.length - 10`
when `items.length > 10`.  (As a claim about every formatter it is false:
the sidebar `formatResult` truncates at 5 — see the counterexample.) -/
theorem formatMCPResult_collection_rows (count : Option Nat) (items : List CollItem) :
    (items.length ≤ 10 →
      (formatMCPResultCollection count items).rows = items.map renderRow ∧
      (formatMCPResultCollection count items).more = none) ∧
    (10 < items.length →
      ((formatMCPResultCollection count items).rows).length = 10 ∧
      (formatMCPResultCollection count items).more = some (items.length - 10)) := by
  constructor
  · intro h
    constructor
    · show collectionRows items = items.map renderRow
      unfold collectionRows
      rw [List.take_of_length_le h]
    · show collectionMoreNote items = none
      unfold collectionMoreNote
      rw [if_neg (by omega)]
  · intro h
    constructor
    · show (collectionRows items).length = 10
      unfold collectionRows
      rw [List.length_map, List.length_take]
      omega
    · show collectionMoreNote items = some (items.length - 10)
      unfold collectionMoreNote
      rw [if_pos (by omega)]

/-- C6 witness: an 11-item collection renders 10 rows and `and 1 more`;
a 3-item collection renders each of its items exactly once. -/
theorem formatMCPResult_collection_rows_witness :
    ((formatMCPResultCollection none (List.replicate 11 ⟨"x", none, none, none⟩)).rows).length = 10 ∧
    (formatMCPResultCollection none (List.replicate 11 ⟨"x", none, none, none⟩)).more = some 1 ∧
    (formatMCPResultCollection none
        [⟨"a", none, none, none⟩, ⟨"b", none, none, none⟩, ⟨"c", none, none, none⟩]).rows =
      List.map renderRow [⟨"a", none, none, none⟩, ⟨"b", none, none, none⟩, ⟨"c", none, none, none⟩] :=
  ⟨((formatMCPResult_collection_rows none (List.replicate 11 ⟨"x", none, none, none⟩)).2
      (by decide)).1,
   ((formatMCPResult_collection_rows none (List.replicate 11 ⟨"x", none, none, none⟩)).2
      (by decide)).2,
   ((formatMCPResult_collection_rows none
      [⟨"a", none, none, none⟩, ⟨"b", none, none, none⟩, ⟨"c", none, none, none⟩]).1
      (by decide)).1⟩

/-- C6 counterexample: a 6-item collection (≤ 10 items) is NOT rendered
item-per-row by the sidebar `formatResult`: only 5 rows appear plus an
`and 1 more` note, so "the formatter renders every item exactly once when
items.length ≤ 10" fails for that formatter. -/
theorem formatResult_collection_truncates_at_5 :
    ([⟨"i1", none, none, none⟩, ⟨"i2", none, none, none⟩, ⟨"i3", none, none, none⟩,
      ⟨"i4", none, none, none⟩, ⟨"i5", none, none, none⟩,
      ⟨"i6", none, none, none⟩] : List CollItem).length ≤ 10 ∧
    ((formatResultCollection none
      [⟨"i1", none, none, none⟩, ⟨"i2", none, none, none⟩, ⟨"i3", none, none, none⟩,
       ⟨"i4", none, none, none⟩, ⟨"i5", none, none, none⟩, ⟨"i6", none, none, none⟩]).rows).length = 5 ∧
    (formatResultCollection none
      [⟨"i1", none, none, none⟩, ⟨"i2", none, none, none⟩, ⟨"i3", none, none, none⟩,
       ⟨"i4", none, none, none⟩, ⟨"i5", none, none, none⟩, ⟨"i6", none, none, none⟩]).rows ≠
      List.map renderRowSide
        [⟨"i1", none, none, none⟩, ⟨"i2", none, none, none⟩, ⟨"i3", none, none, none⟩,
         ⟨"i4", none, none, none⟩, ⟨"i5", none, none, none⟩, ⟨"i6", none, none, none⟩] ∧
    (formatResultCollection none
      [⟨"i1", none, none, none⟩, ⟨"i2", none, none, none⟩, ⟨"i3", none, none, none⟩,
       ⟨"i4", none, none, none⟩, ⟨"i5", none, none, none⟩, ⟨"i6", none, none, none⟩]).more = some 1 := by
  refine ⟨by decide, by decide, ?_, by decide⟩
  intro hc
  have := congrArg List.length hc
  simp [formatResultCollection, collectionRowsSide] at this

/-- Binade exponent of `a / 100` for `a ≥ 1`: the `e` with
`2 ^ e ≤ a / 100 < 2 ^ (e + 1)`.  Since `64 < 100 < 128` it is
`log2 a - 6` or `log2 a - 7`, and the branch test
`100 * 2 ^ log2 a ≤ 64 * a` decides `2 ^ (log2 a - 6) ≤ a / 100` in
integers. -/
def jsDiv100Exp (a : Nat) : Int :=
  if 100 * 2 ^ natLog2 a ≤ 64 * a then (natLog2 a : Int) - 6
  else (natLog2 a : Int) - 7

/-- The formatters' monetary display conversion `data.amount / 100` as the
binary64 division computes it: the significand is the exact quotient
scaled into `[2 ^ 52, 2 ^ 53)` at the binade `e` of `a / 100` and rounded
half to even; the scaled quotient is the integer fraction
`(a * 2 ^ 52 * 2 ^ (max 0 (-e))) / (100 * 2 ^ (max 0 e))`, so the
significand is computed with exact natural arithmetic.  Any `a ≥ 1` is
far above the subnormal range, and the `2 ^ 1024` overflow threshold is
beyond every value the theorems below evaluate. -/
def displayAmount (amount : Nat) : ℚ :=
  if amount = 0 then 0
  else
    (rneDiv (amount * 2 ^ 52 * 2 ^ (-jsDiv100Exp amount).toNat)
        (100 * 2 ^ (jsDiv100Exp amount).toNat) : ℚ) *
      (2 : ℚ) ^ (jsDiv100Exp amount - 52)

/-- The scaled-significand rounding at any exponent `e` carries an error of
at most half a unit in the last place, `2 ^ (e - 53)`. -/
theorem rneDiv_scaled_err (a : Nat) (e : Int) :
    |(rneDiv (a * 2 ^ 52 * 2 ^ (-e).toNat) (100 * 2 ^ e.toNat) : ℚ) *
        (2 : ℚ) ^ (e - 52) - (a : ℚ) / 100| ≤ (2 : ℚ) ^ (e - 53) := by
  have h2 : (2 : ℚ) ≠ 0 := two_ne_zero
  have hQ : (0 : Nat) < 100 * 2 ^ e.toNat := by positivity
  have herr := rneDiv_err (p := a * 2 ^ 52 * 2 ^ (-e).toNat) hQ
  have hzpos : (0 : ℚ) < (2 : ℚ) ^ (e - 52) := zpow_pos (by norm_num) _
  have hz1 : ((2 : ℚ) ^ ((-e).toNat) : ℚ) = (2 : ℚ) ^ (((-e).toNat : Int)) :=
    (zpow_natCast 2 _).symm
  have hz2 : ((2 : ℚ) ^ (e.toNat) : ℚ) = (2 : ℚ) ^ ((e.toNat : Int)) :=
    (zpow_natCast 2 _).symm
  have hcomb : (4503599627370496 : ℚ) * (2 : ℚ) ^ (((-e).toNat : Int)) *
      (2 : ℚ) ^ (e - 52) = (2 : ℚ) ^ ((e.toNat : Int)) := by
    rw [show (4503599627370496 : ℚ) = (2 : ℚ) ^ ((52 : Int)) from by norm_num]
    rw [← zpow_add₀ h2, ← zpow_add₀ h2]
    congr 1
    omega
  have hkey : ((a * 2 ^ 52 * 2 ^ (-e).toNat : Nat) : ℚ) /
      ((100 * 2 ^ e.toNat : Nat) : ℚ) * (2 : ℚ) ^ (e - 52) = (a : ℚ) / 100 := by
    push_cast
    rw [div_mul_eq_mul_div, div_eq_div_iff (by positivity) (by norm_num)]
    rw [hz1, hz2]
    linear_combination (a : ℚ) * 100 * hcomb
  calc |(rneDiv (a * 2 ^ 52 * 2 ^ (-e).toNat) (100 * 2 ^ e.toNat) : ℚ) *
        (2 : ℚ) ^ (e - 52) - (a : ℚ) / 100|
      = |(rneDiv (a * 2 ^ 52 * 2 ^ (-e).toNat) (100 * 2 ^ e.toNat) : ℚ) -
          ((a * 2 ^ 52 * 2 ^ (-e).toNat : Nat) : ℚ) /
            ((100 * 2 ^ e.toNat : Nat) : ℚ)| * (2 : ℚ) ^ (e - 52) := by
        rw [← hkey, ← sub_mul, abs_mul, abs_of_pos hzpos]
    _ ≤ 1 / 2 * (2 : ℚ) ^ (e - 52) :=
        mul_le_mul_of_nonneg_right herr (le_of_lt hzpos)
    _ = (2 : ℚ) ^ (e - 53) := by
        rw [show (1 / 2 : ℚ) = (2 : ℚ) ^ ((-1 : Int)) from by norm_num,
          ← zpow_add₀ h2]
        congr 1
        omega

/-- For amounts below `100 * 2 ^ 46`, the binade exponent of `a / 100` is
at most 45, so the rounding error of the display division stays below half
a minor unit. -/
theorem jsDiv100Exp_le {a : Nat} (ha : 1 ≤ a) (h : a < 100 * 2 ^ 46) :
    jsDiv100Exp a ≤ 45 := by
  have hL1 : 2 ^ natLog2 a ≤ a := natLog2_le ha
  unfold jsDiv100Exp
  split_ifs with hb
  · have hlt : 2 ^ natLog2 a < 2 ^ 52 := by
      have h1 : 100 * 2 ^ natLog2 a < 100 * 2 ^ 52 := by
        calc 100 * 2 ^ natLog2 a ≤ 64 * a := hb
          _ < 64 * (100 * 2 ^ 46) := by omega
          _ = 100 * 2 ^ 52 := by norm_num
      omega
    have hL : natLog2 a < 52 := (Nat.pow_lt_pow_iff_right (by norm_num)).mp hlt
    omega
  · have hlt : 2 ^ natLog2 a < 2 ^ 53 := by
      calc 2 ^ natLog2 a ≤ a := hL1
        _ < 100 * 2 ^ 46 := h
        _ < 2 ^ 53 := by norm_num
    have hL : natLog2 a < 53 := (Nat.pow_lt_pow_iff_right (by norm_num)).mp hlt
    omega

/-- C8 counterexample: the representable amount 8000000000000032 displays
as the double 80000000000000.3125 (the significand 5120000000000020 at
binade 46); multiplied by 100 and rounded this yields 8000000000000031,
not the original amount, so the unrestricted round-trip fails. -/
theorem displayAmount_roundtrip_counterexample :
    displayAmount 8000000000000032 = 5120000000000020 / 64 ∧
    round (displayAmount 8000000000000032 * 100) = 8000000000000031 ∧
    (8000000000000031 : Int) ≠ 8000000000000032 := by
  have he : jsDiv100Exp 8000000000000032 = 46 := by decide
  have h1 : displayAmount 8000000000000032 =
      (5120000000000020 : ℚ) * (2 : ℚ) ^ ((46 : Int) - 52) := by
    unfold displayAmount
    rw [if_neg (by decide : ¬(8000000000000032 = 0))]
    rw [he]
    rw [show rneDiv (8000000000000032 * 2 ^ 52 * 2 ^ (-(46 : Int)).toNat)
        (100 * 2 ^ ((46 : Int)).toNat) = 5120000000000020 from by decide]
    norm_num
  have hd : displayAmount 8000000000000032 = 5120000000000020 / 64 := by
    rw [h1]
    norm_num
  have h2 : displayAmount 8000000000000032 * 100 = 512000000000002000 / 64 := by
    rw [hd]
    ring
  refine ⟨hd, ?_, by decide⟩
  rw [h2, round_eq, Int.floor_eq_iff]
  constructor <;> norm_num

/-- C8 (amended): for every minor-unit amount below `100 * 2 ^ 46`
(7036874417766400), the binary64 displayed value `a / 100`, multiplied by
100 and rounded, equals the original amount: at binade at most 45 the
division's rounding error is at most `2 ^ (-8)`, and scaled by 100 it
stays below half a unit.  From binade 46 on the error can exceed half a
unit and the round-trip can fail, as the counterexample shows. -/
theorem displayAmount_roundtrip (a : Nat) (h : a < 100 * 2 ^ 46) :
    round (displayAmount a * 100) = (a : ℤ) := by
  rcases Nat.eq_zero_or_pos a with rfl | ha
  · unfold displayAmount
    norm_num
  · have ha' : a ≠ 0 := ha.ne'
    have he : jsDiv100Exp a ≤ 45 := jsDiv100Exp_le ha h
    have h1 := rneDiv_scaled_err a (jsDiv100Exp a)
    have hda : displayAmount a =
        (rneDiv (a * 2 ^ 52 * 2 ^ (-jsDiv100Exp a).toNat)
            (100 * 2 ^ (jsDiv100Exp a).toNat) : ℚ) *
          (2 : ℚ) ^ (jsDiv100Exp a - 52) := by
      unfold displayAmount
      rw [if_neg ha']
    rw [← hda] at h1
    have hmono : (2 : ℚ) ^ (jsDiv100Exp a - 53) ≤ (2 : ℚ) ^ ((45 : Int) - 53) :=
      zpow_le_zpow_right₀ (by norm_num) (by omega)
    have herr2 : |displayAmount a * 100 - (a : ℚ)| ≤ 100 * (2 : ℚ) ^ ((45 : Int) - 53) := by
      have hstep : |displayAmount a * 100 - (a : ℚ)| =
          |displayAmount a - (a : ℚ) / 100| * 100 := by
        rw [← abs_of_pos (show (0 : ℚ) < 100 from by norm_num), ← abs_mul]
        congr 1
        field_simp
      rw [hstep]
      calc |displayAmount a - (a : ℚ) / 100| * 100
          ≤ (2 : ℚ) ^ (jsDiv100Exp a - 53) * 100 :=
            mul_le_mul_of_nonneg_right h1 (by norm_num)
        _ ≤ (2 : ℚ) ^ ((45 : Int) - 53) * 100 :=
            mul_le_mul_of_nonneg_right hmono (by norm_num)
        _ = 100 * (2 : ℚ) ^ ((45 : Int) - 53) := by ring
    have hlt : |displayAmount a * 100 - (a : ℚ)| < 1 / 2 :=
      lt_of_le_of_lt herr2 (by norm_num)
    rw [abs_lt] at hlt
    rw [round_eq, Int.floor_eq_iff]
    constructor
    · push_cast
      linarith [hlt.1]
    · push_cast
      linarith [hlt.2]

/-- C8 witness: the amount 50000 (500 rupees) is below the bound, and its
displayed value round-trips. -/
theorem displayAmount_roundtrip_witness :
    50000 < 100 * 2 ^ 46 ∧ round (displayAmount 50000 * 100) = (50000 : ℤ) :=
  ⟨by norm_num, displayAmount_roundtrip 50000 (by norm_num)⟩

/-- `ConversationItem` / `SmartronHistoryItem`: one stored question/answer
pair of the documentation-search history. -/
structure QAPair where
  question : String
  answer : String
deriving DecidableEq, Repr

/-- The `history` field sent by the history-keeping variant's
`callSmartronAPI`: `this.smartronHistory.slice(-5)` (the last ≤ 5 stored
pairs). -/
def smartronRequestHistory (hist : List QAPair) : List QAPair :=
  hist.drop (hist.length - 5)

/-- One successful turn of `handleRazorpayQuestion`: push the new pair,
then truncate the store to the last 10 entries
(`if (this.smartronHistory.length > 10) this.smartronHistory =
this.smartronHistory.slice(-10)`). -/
def pushHistory (hist : List QAPair) (qa : QAPair) : List QAPair :=
  if (hist ++ [qa]).length > 10 then
    (hist ++ [qa]).drop ((hist ++ [qa]).length - 10)
  else hist ++ [qa]

/-- The other variant (`assistantChatViewProvider.callSmartronAPI`) always
sends `history: []`. -/
def assistantRequestHistory : List QAPair := []

theorem pushHistory_length_le {hist : List QAPair} (h : hist.length ≤ 10) (qa : QAPair) :
    (pushHistory hist qa).length ≤ 10 := by
  unfold pushHistory
  split
  · rw [List.length_drop]
    omega
  · rename_i hc
    simp only [List.length_append, List.length_singleton] at *
    omega

theorem foldl_pushHistory_le (turns : List QAPair) :
    ∀ init : List QAPair, init.length ≤ 10 →
      (turns.foldl pushHistory init).length ≤ 10 := by
  induction turns with
  | nil => intro init h; exact h
  | cons qa rest ih => intro init h; exact ih _ (pushHistory_length_le h qa)

/-- C9: after any sequence of successful turns, the stored history never
exceeds 10 entries, and every request built by the history-keeping variant
carries at most the last 5 stored pairs (a suffix of the store of length
≤ 5), while the other variant always sends an empty history. -/
theorem smartron_history_bounds (turns : List QAPair) :
    (turns.foldl pushHistory []).length ≤ 10 ∧
    (smartronRequestHistory (turns.foldl pushHistory [])).length ≤ 5 ∧
    (smartronRequestHistory (turns.foldl pushHistory [])) <:+ (turns.foldl pushHistory []) ∧
    assistantRequestHistory = [] := by
  refine ⟨foldl_pushHistory_le turns [] (by decide), ?_, ?_, rfl⟩
  · unfold smartronRequestHistory
    rw [List.length_drop]
    omega
  · unfold smartronRequestHistory
    exact List.drop_suffix _ _

/-- JSON value model for `JSON.parse` results.  Numbers are kept exactly in
unnormalized scientific form `mantissa · 10 ^ exponent` (JS converts them
to binary doubles, but the dispatcher never inspects numeric magnitudes);
object fields keep source order, duplicate keys resolved last-wins as in
JS. -/
inductive JVal where
  | null : JVal
  | bool (b : Bool) : JVal
  | num (mantissa : Int) (exponent : Int) : JVal
  | str (s : String) : JVal
  | arr (xs : List JVal) : JVal
  | obj (fields : List (String × JVal)) : JVal

/-- JSON insignificant whitespace. -/
def jsonWs (c : Char) : Bool := c = ' ' || c = '\t' || c = '\n' || c = '\r'

/-- Skip JSON whitespace. -/
def skipWs (cs : List Char) : List Char := cs.dropWhile (fun c => jsonWs c)

/-- The left and right curly brackets as characters. -/
def lbrace : Char := Char.ofNat 0x7b

/-- See `lbrace`. -/
def rbrace : Char := Char.ofNat 0x7d

/-- Value of one hexadecimal digit of a `\uXXXX` escape (codes 48.. for
digits, 97.. lower case, 65.. upper case). -/
def hexDigitValue (c : Char) : Option Nat :=
  if jsDigit c then some (c.toNat - 48)
  else if 'a' ≤ c && c ≤ 'f' then some (c.toNat - 87)
  else if 'A' ≤ c && c ≤ 'F' then some (c.toNat - 55)
  else none

/-- Code point of a four-hex-digit escape. -/
def hex4Value (h1 h2 h3 h4 : Char) : Option Nat :=
  match hexDigitValue h1, hexDigitValue h2, hexDigitValue h3, hexDigitValue h4 with
  | some a, some b, some c, some d => some (4096 * a + 256 * b + 16 * c + d)
  | _, _, _, _ => none

/-- The single-character escapes of JSON strings (backspace and form feed
written as their code points). -/
def jsonEscape : Char → Option Char
  | '"' => some '"'
  | '\\' => some '\\'
  | '/' => some '/'
  | 'b' => some '\x08'
  | 'f' => some '\x0c'
  | 'n' => some '\n'
  | 'r' => some '\r'
  | 't' => some '\t'
  | _ => none

/-- JSON string body (after the opening quote): characters until the
closing quote, with escapes; raw control characters are rejected.  Fuel is
one more than the remaining input length, so it never runs out. -/
def parseStrChars : Nat → List Char → Option (List Char × List Char)
  | 0, _ => none
  | _, [] => none
  | fuel + 1, c :: t =>
    if c = '"' then some ([], t)
    else if c = '\\' then
      match t with
      | [] => none
      | e :: t2 =>
        if e = 'u' then
          match t2 with
          | h1 :: h2 :: h3 :: h4 :: t3 =>
            match hex4Value h1 h2 h3 h4 with
            | some code =>
              (parseStrChars fuel t3).map (fun p => (Char.ofNat code :: p.1, p.2))
            | none => none
          | _ => none
        else
          match jsonEscape e with
          | some ec => (parseStrChars fuel t2).map (fun p => (ec :: p.1, p.2))
          | none => none
    else if c.toNat < 32 then none
    else (parseStrChars fuel t).map (fun p => (c :: p.1, p.2))

/-- Optional JSON fraction part (`(\.\d+)?`): the digit list after the
dot, empty when absent. -/
def parseFrac : List Char → Option (List Char × List Char)
  | '.' :: t =>
    if (digitRun t).isEmpty then none
    else some (digitRun t, t.drop (digitRun t).length)
  | cs => some ([], cs)

/-- Exponent digits with sign. -/
def expDigits (cs : List Char) (pos : Bool) : Option (Int × List Char) :=
  if (digitRun cs).isEmpty then none
  else some ((if pos then (digitsToNat (digitRun cs) : Int)
              else -(digitsToNat (digitRun cs) : Int)),
             cs.drop (digitRun cs).length)

/-- Optional JSON exponent part (`([eE][+-]?\d+)?`); 0 when absent. -/
def parseExp : List Char → Option (Int × List Char)
  | [] => some (0, [])
  | c :: t =>
    if c = 'e' || c = 'E' then
      match t with
      | [] => none
      | s :: t2 =>
        if s = '+' then expDigits t2 true
        else if s = '-' then expDigits t2 false
        else expDigits t true
    else some (0, c :: t)

/-- JSON number (`-?(0|[1-9]\d*)(\.\d+)?([eE][+-]?\d+)?`): the
integer-and-fraction digits as the mantissa, the exponent adjusted by the
fraction length. -/
def parseNumber (cs : List Char) : Option ((Int × Int) × List Char) :=
  match cs with
  | [] => none
  | c :: _ =>
    let neg := c = '-'
    let cs1 := if neg then cs.drop 1 else cs
    let ds := digitRun cs1
    if ds.isEmpty then none
    else if 1 < ds.length && ds.headD '0' = '0' then none
    else
      match parseFrac (cs1.drop ds.length) with
      | none => none
      | some (fs, cs3) =>
        match parseExp cs3 with
        | none => none
        | some (ex, cs4) =>
          some (((if neg then -(digitsToNat (ds ++ fs) : Int)
                  else (digitsToNat (ds ++ fs) : Int)),
                 ex - (fs.length : Int)), cs4)

mutual

/-- Fuel-based recursive-descent JSON value parser (the model of
`JSON.parse`); the fuel passed by `jparse` is one more than the input
length, which bounds the nesting depth. -/
def parseVal : Nat → List Char → Option (JVal × List Char)
  | 0, _ => none
  | fuel + 1, cs0 =>
    match skipWs cs0 with
    | [] => none
    | c :: t =>
      if c = lbrace then
        match skipWs t with
        | c2 :: r =>
          if c2 = rbrace then some (JVal.obj [], r)
          else (parseMembers fuel t).map (fun p => (JVal.obj p.1, p.2))
        | [] => none
      else if c = '[' then
        match skipWs t with
        | c2 :: r =>
          if c2 = ']' then some (JVal.arr [], r)
          else (parseElems fuel t).map (fun p => (JVal.arr p.1, p.2))
        | [] => none
      else if c = '"' then
        (parseStrChars (t.length + 1) t).map (fun p => (JVal.str p.1.asString, p.2))
      else if "true".toList.isPrefixOf (c :: t) then some (JVal.bool true, (c :: t).drop 4)
      else if "false".toList.isPrefixOf (c :: t) then some (JVal.bool false, (c :: t).drop 5)
      else if "null".toList.isPrefixOf (c :: t) then some (JVal.null, (c :: t).drop 4)
      else (parseNumber (c :: t)).map (fun p => (JVal.num p.1.1 p.1.2, p.2))

/-- Non-empty JSON object member list (`"key": value`, comma-separated,
closed by the right brace). -/
def parseMembers : Nat → List Char → Option (List (String × JVal) × List Char)
  | 0, _ => none
  | fuel + 1, cs =>
    match skipWs cs with
    | [] => none
    | c :: t =>
      if c = '"' then
        match parseStrChars (t.length + 1) t with
        | some (k, rest) =>
          match skipWs rest with
          | ':' :: rest2 =>
            match parseVal fuel rest2 with
            | some (v, rest3) =>
              match skipWs rest3 with
              | [] => none
              | ',' :: rest5 =>
                (parseMembers fuel rest5).map (fun p => ((k.asString, v) :: p.1, p.2))
              | c2 :: r6 =>
                if c2 = rbrace then some ([(k.asString, v)], r6) else none
            | none => none
          | _ => none
        | none => none
      else none

/-- Non-empty JSON array element list. -/
def parseElems : Nat → List Char → Option (List JVal × List Char)
  | 0, _ => none
  | fuel + 1, cs =>
    match parseVal fuel cs with
    | some (v, rest) =>
      match skipWs rest with
      | [] => none
      | ',' :: rest2 => (parseElems fuel rest2).map (fun p => (v :: p.1, p.2))
      | c2 :: r => if c2 = ']' then some ([v], r) else none
    | none => none

end

/-- `JSON.parse`: a single JSON document covering the whole input (up to
trailing whitespace). -/
def jparse (s : String) : Option JVal :=
  match parseVal (s.length + 1) s.toList with
  | some (v, rest) => if (skipWs rest).isEmpty then some v else none
  | none => none

/-- JS object field lookup with duplicate keys resolved last-wins (the
`JSON.parse` semantics). -/
def jlookup (fields : List (String × JVal)) (k : String) : Option JVal :=
  fields.foldl (fun acc kv => if kv.1 = k then some kv.2 else acc) none

/-- JS truthiness of a property access `response.jsonrpc` (absent property,
`null`, `false`, `0` and the empty string are falsy). -/
def truthy : Option JVal → Bool
  | none => false
  | some JVal.null => false
  | some (JVal.bool b) => b
  | some (JVal.num m _) => decide (m ≠ 0)
  | some (JVal.str s) => !s.isEmpty
  | some (JVal.arr _) => true
  | some (JVal.obj _) => true

/-- `if (response.jsonrpc)`: truthiness of the `jsonrpc` key; non-object
values have no properties. -/
def hasJsonrpc (v : JVal) : Bool :=
  match v with
  | JVal.obj fields => truthy (jlookup fields "jsonrpc")
  | _ => false

/-- JS `String.prototype.trim` (both ends, JS whitespace). -/
def jsTrim (s : String) : String :=
  (((s.toList.dropWhile (fun c => jsWs c)).reverse.dropWhile (fun c => jsWs c)).reverse).asString

/-- `data.split('\n')`: split at every newline (structurally, so that it
evaluates by reduction). -/
def splitNL : List Char → List (List Char)
  | [] => [[]]
  | c :: t =>
    if c = '\n' then [] :: splitNL t
    else
      match splitNL t with
      | [] => [[c]]
      | l :: ls => (c :: l) :: ls

/-- `data.split('\n').filter(line => line.trim())`. -/
def bodyLines (body : String) : List String :=
  ((splitNL body.toList).map List.asString).filter (fun l => jsTrim l ≠ "")

/-- One loop iteration of the dispatcher's scan: the line must parse as
JSON and its `jsonrpc` key must be truthy; parse failures and falsy
`jsonrpc` both continue with the next line. -/
def qualify (l : String) : Option JVal :=
  match jparse l with
  | some v => if hasJsonrpc v then some v else none
  | none => none

/-- The dispatcher's loop over the kept lines: resolve with the first
qualifying line. -/
def firstQualify : List String → Option JVal
  | [] => none
  | l :: ls =>
    match qualify l with
    | some v => some v
    | none => firstQualify ls

/-- The response-resolution logic of `mcpRequest`'s `end` handler: scan the
newline-split, non-blank lines for the first JSON object with a truthy
`jsonrpc` key; otherwise parse the whole body as one JSON document;
otherwise reject with the wrapped parse error carrying the first 200
characters of the body. -/
def mcpResolve (body : String) : Except String JVal :=
  match firstQualify (bodyLines body) with
  | some v => Except.ok v
  | none =>
    match jparse body with
    | some v => Except.ok v
    | none =>
      Except.error ("Invalid response from MCP server: " ++ (body.toList.take 200).asString)

theorem firstQualify_append {pre : List String} (hpre : ∀ p ∈ pre, qualify p = none)
    {l : String} {rest : List String} {v : JVal} (hl : qualify l = some v) :
    firstQualify (pre ++ l :: rest) = some v := by
  induction pre with
  | nil =>
    show firstQualify (l :: rest) = some v
    unfold firstQualify
    rw [hl]
  | cons p ps ih =>
    show firstQualify (p :: (ps ++ l :: rest)) = some v
    unfold firstQualify
    rw [hpre p (by simp)]
    exact ih (fun p' hp' => hpre p' (by simp [hp']))

theorem firstQualify_none {ls : List String} (h : ∀ l ∈ ls, qualify l = none) :
    firstQualify ls = none := by
  induction ls with
  | nil => rfl
  | cons p ps ih =>
    unfold firstQualify
    rw [h p (by simp)]
    exact ih (fun l hl => h l (by simp [hl]))

/-- C7: the dispatcher resolves with the first newline-delimited segment
that parses as JSON with a truthy `jsonrpc` key; only when no segment
qualifies does it fall back to parsing the whole body (and rejects with the
wrapped parse error carrying the body's first 200 characters when that also
fails). -/
theorem mcpResolve_line_scan (body l : String) (pre rest : List String) (v : JVal) :
    (bodyLines body = pre ++ l :: rest →
      (∀ p ∈ pre, qualify p = none) → qualify l = some v →
      mcpResolve body = Except.ok v) ∧
    ((∀ p ∈ bodyLines body, qualify p = none) → jparse body = some v →
      mcpResolve body = Except.ok v) ∧
    ((∀ p ∈ bodyLines body, qualify p = none) → jparse body = none →
      mcpResolve body = Except.error
        ("Invalid response from MCP server: " ++ (body.toList.take 200).asString)) := by
  refine ⟨?_, ?_, ?_⟩
  · intro he hpre hl
    unfold mcpResolve
    rw [he, firstQualify_append hpre hl]
  · intro hall hp
    unfold mcpResolve
    rw [firstQualify_none hall, hp]
  · intro hall hp
    unfold mcpResolve
    rw [firstQualify_none hall, hp]


/-- C7 witness: a body of three newline-separated JSON objects of which
only the second has a `jsonrpc` key resolves with that second object. -/
theorem mcpResolve_line_scan_witness :
    mcpResolve "\x7b\"a\": 1\x7d\n\x7b\"jsonrpc\": \"2.0\", \"id\": 7\x7d\n\x7b\"b\": 2\x7d" =
      Except.ok (JVal.obj [("jsonrpc", JVal.str "2.0"), ("id", JVal.num 7 0)]) :=
  (mcpResolve_line_scan
    "\x7b\"a\": 1\x7d\n\x7b\"jsonrpc\": \"2.0\", \"id\": 7\x7d\n\x7b\"b\": 2\x7d"
    "\x7b\"jsonrpc\": \"2.0\", \"id\": 7\x7d"
    ["\x7b\"a\": 1\x7d"] ["\x7b\"b\": 2\x7d"]
    (JVal.obj [("jsonrpc", JVal.str "2.0"), ("id", JVal.num 7 0)])).1
    rfl
    (by intro p hp; rw [List.mem_singleton] at hp; subst hp; rfl)
    rfl
